import Mathlib

/- Shallow embedding of the USB Micro SD Player Module firmware, revision
   24i of the sketch (the feature-complete revision that the specification
   treats as canonical: three play modes, interval "off" value, play-count
   setting).  Machine bytes are modelled as `Nat` with an explicit `% 256`
   wherever the C code truncates, and C `int` subtraction that can go
   negative is modelled through `Int` with an explicit conversion back to a
   byte.  The Arduino pseudo-random source `random(k)` is modelled by an
   arbitrary stream `g : Nat → Nat`: the t-th call with bound `k` returns
   `g t % k`, so every theorem quantifying over `g` holds for every
   possible sequence of random values. -/

namespace USB

/-! ## Compile-time constants of revision 24i -/

def N : Nat := 128

def modeCount : Nat := 3

def volCount : Nat := 3

def intvlCount : Nat := 4

def cntCount : Nat := 4

def Full : Nat := 0

def Short : Nat := 1

def Book : Nat := 2

def seedAddr : Nat := 0

def fileAddr : Nat := 1

def modeAddr : Nat := 2

def volAddr : Nat := 3

def intAddr : Nat := 4

def cntAddr : Nat := 5

def volArray : List Nat := [10, 18, 25]

def intArray : List Nat := [5, 10, 30, 0]

def cntArray : List Nat := [1, 2, 3, 0]

def modeReset : Nat := 0

def volReset : Nat := 1

def intvlReset : Nat := 3

def cntReset : Nat := 0

def CmdTimeOut : Nat := 500

def sleepTimeOut : Nat := 5000

def debounce : Nat := 20

def playTime : Nat := 30000

/-- fadeTime is declared `byte fadeTime = 3000;` in the source: the
initializer 3000 does not fit in a byte and is truncated modulo 256. -/
def fadeTime : Nat := 3000 % 256

/-! ## Persisted settings and their load at startup (setup(), C4/C9) -/

structure Settings where
  file : Nat
  mode : Nat
  volume : Nat
  interval : Nat
  count : Nat
deriving DecidableEq

/-- EEPROM restore in setup(): `file` is read raw, while `mode`, `volume`,
`interval` and `count` are reduced modulo their option counts.  The
argument `e` gives the persisted byte at each EEPROM address. -/
def loadSettings (e : Nat → Nat) : Settings :=
  { file := e fileAddr
  , mode := e modeAddr % modeCount
  , volume := e volAddr % volCount
  , interval := e intAddr % intvlCount
  , count := e cntAddr % cntCount }

/-- case 8 of loop() (command S4): reset all user settings; note that the
current file is deliberately set to 0, a sentinel that suppresses resume. -/
def resetSettings (_s : Settings) : Settings :=
  { file := 0
  , mode := modeReset
  , volume := volReset
  , interval := intvlReset
  , count := cntReset }

/-- conversion of a C `int` expression back to a byte on assignment
(two's-complement truncation to 8 bits). -/
def byteOfInt (z : Int) : Nat := (z % 256).toNat

/-- playNext(): `file += fileStep; if (file > fileCount) file = 1;`
(byte addition wraps modulo 256). -/
def playNextFile (fileStep fileCount file : Nat) : Nat :=
  let f := (file + fileStep) % 256
  if f > fileCount then 1 else f

/-- playPrev(): `if (file == 1) file = fileCount - fileStep + 1;
else file -= fileStep;` with C `int` arithmetic truncated to a byte. -/
def playPrevFile (fileStep fileCount file : Nat) : Nat :=
  if file = 1 then byteOfInt ((fileCount : Int) - (fileStep : Int) + 1)
  else byteOfInt ((file : Int) - (fileStep : Int))

/-- setup() book-mode boot adjustment:
`file -= fileStep; if (file < 1) file = fileCount;`. -/
def bookBootFile (fileStep fileCount file : Nat) : Nat :=
  let f := byteOfInt ((file : Int) - (fileStep : Int))
  if f < 1 then fileCount else f

/-! ## Volume fade (fadeVolumeDown, C10) -/

/-- per-step delay of fadeVolumeDown():
`slice = (fadeTime / maxVolume) * 10;` with integer division. -/
def fadeVolumeDownSlice (maxVolume : Nat) : Nat :=
  fadeTime / maxVolume * 10

/-- total time spent waiting inside the fade loop of fadeVolumeDown():
the loop runs for vol = maxVolume down to 0, i.e. maxVolume + 1 passes,
each waiting one slice. -/
def fadeVolumeDownTotal (maxVolume : Nat) : Nat :=
  (maxVolume + 1) * fadeVolumeDownSlice maxVolume

/-! ## LED feedback and the L2 (mode change) command (C6) -/

/-- displayStatus(n) blinks the LED for i = 0..n, i.e. n + 1 times. -/
def displayStatusBlinks (n : Nat) : Nat := n + 1

structure ModeSt where
  mode : Nat
  file : Nat
  volume : Nat
  paused : Bool
deriving DecidableEq

/-- commands sent to the DFPlayer, in order. -/
inductive Eff where
  | setVol (v : Nat)
  | play (f : Nat)
  | pause
  | stop
deriving DecidableEq

structure L2Result where
  st : ModeSt
  blinks : Nat
  effs : List Eff
deriving DecidableEq

/-- case 3 of loop() (command L2, change play mode), timeout branch:
advance the mode cyclically, blink the new ordinal + 1 times, and if the
new mode is Book go to chapter 1 and leave the player paused (play at
volume 0, then immediately pause and restore the volume). -/
def applyL2 (s : ModeSt) : L2Result :=
  let m := (s.mode + 1) % modeCount
  if m = Book then
    { st := { s with mode := m, file := 1, paused := true }
    , blinks := displayStatusBlinks m
    , effs := [Eff.setVol 0, Eff.play 1, Eff.pause,
               Eff.setVol (volArray.getD s.volume 0)] }
  else
    { st := { s with mode := m }
    , blinks := displayStatusBlinks m
    , effs := [] }

/-! ## Theorems for C4 (settings sanitization at load) -/

/-- C4: for every persisted byte image, each ordinal setting (mode,
volume, interval, count) is loaded as the stored value reduced modulo its
option count, hence always lies inside the valid range; no stored byte can
select an out-of-range option. -/
theorem claim_C4 (e : Nat → Nat) :
    (loadSettings e).mode = e modeAddr % modeCount ∧
    (loadSettings e).volume = e volAddr % volCount ∧
    (loadSettings e).interval = e intAddr % intvlCount ∧
    (loadSettings e).count = e cntAddr % cntCount ∧
    (loadSettings e).mode < modeCount ∧
    (loadSettings e).volume < volCount ∧
    (loadSettings e).interval < intvlCount ∧
    (loadSettings e).count < cntCount := by
  refine ⟨rfl, rfl, rfl, rfl, ?_, ?_, ?_, ?_⟩ <;>
    simp only [loadSettings] <;>
    exact Nat.mod_lt _ (by decide)

/-! ## Theorems for C10 (fadeTime byte truncation) -/

/-- C10: `fadeTime` is stored as 3000 mod 256 = 184, so for the shipped
volume table {10, 18, 25} the per-step delay is (184 / v) * 10 ms and the
total in-loop fade time is (v + 1) * (184 / v) * 10 ms, i.e. 1980, 1900
and 1820 ms respectively — always under the nominal 3000 ms window. -/
theorem claim_C10 :
    fadeTime = 184 ∧
    fadeVolumeDownSlice 10 = 184 / 10 * 10 ∧
    fadeVolumeDownSlice 18 = 184 / 18 * 10 ∧
    fadeVolumeDownSlice 25 = 184 / 25 * 10 ∧
    fadeVolumeDownTotal 10 = (10 + 1) * (184 / 10 * 10) ∧
    fadeVolumeDownTotal 18 = (18 + 1) * (184 / 18 * 10) ∧
    fadeVolumeDownTotal 25 = (25 + 1) * (184 / 25 * 10) ∧
    fadeVolumeDownTotal 10 = 1980 ∧
    fadeVolumeDownTotal 18 = 1900 ∧
    fadeVolumeDownTotal 25 = 1820 ∧
    fadeVolumeDownTotal 10 < 3000 ∧
    fadeVolumeDownTotal 18 < 3000 ∧
    fadeVolumeDownTotal 25 < 3000 := by
  decide

/-! ## Theorems for C6 (mode change scenario) -/

/-- C6 counterexample: issuing L2 from mode = Full yields mode = Short
(ordinal 1), not Book, under the canonical ordering Full = 0, Short = 1,
Book = 2; the claimed transition Full → Book does not exist in the code. -/
theorem claim_C6_counterexample :
    (applyL2 { mode := Full, file := 7, volume := 1, paused := false }).st.mode
      = Short ∧ Short ≠ Book := by
  decide

/-- C6 amended: issuing L2 from mode = Short makes the mode Book, sets the
current file to 1, leaves the player paused rather than playing (the play
command is issued at volume 0 and immediately followed by pause, then the
configured volume is restored), and blinks the LED 3 times (Book's
ordinal 2, plus one). -/
theorem claim_C6_amended (s : ModeSt) (h : s.mode = Short) :
    (applyL2 s).st.mode = Book ∧
    (applyL2 s).st.file = 1 ∧
    (applyL2 s).st.paused = true ∧
    (applyL2 s).blinks = 3 ∧
    (applyL2 s).effs = [Eff.setVol 0, Eff.play 1, Eff.pause,
                        Eff.setVol (volArray.getD s.volume 0)] := by
  simp [applyL2, h, Short, Book, modeCount, displayStatusBlinks]

/-- C6 witness: the amended theorem applied to a concrete state. -/
theorem claim_C6_amended_witness :
    (applyL2 { mode := Short, file := 9, volume := 2, paused := false }).st.mode
        = Book ∧
    (applyL2 { mode := Short, file := 9, volume := 2, paused := false }).st.file
        = 1 ∧
    (applyL2 { mode := Short, file := 9, volume := 2, paused := false }).st.paused
        = true ∧
    (applyL2 { mode := Short, file := 9, volume := 2, paused := false }).blinks
        = 3 ∧
    (applyL2 { mode := Short, file := 9, volume := 2, paused := false }).effs
        = [Eff.setVol 0, Eff.play 1, Eff.pause, Eff.setVol 25] :=
  claim_C6_amended { mode := Short, file := 9, volume := 2, paused := false } rfl

/-! ## Theorems for C9 (current-file range invariant) -/

/-- C9 counterexample: the settings-reset command (S4) sets the current
file to 0, which violates 1 ≤ currentFile; the stored byte is also loaded
back unsanitized at boot.  So the range invariant does not hold in every
reachable state. -/
theorem claim_C9_counterexample :
    (resetSettings { file := 57, mode := 0, volume := 1, interval := 3,
                     count := 0 }).file = 0 ∧
    ¬ (1 ≤ (resetSettings { file := 57, mode := 0, volume := 1, interval := 3,
                            count := 0 }).file) ∧
    (loadSettings (fun _ => 200)).file = 200 := by
  decide

/-- C9 amended: playNext always brings the file back into [1, fileCount]
(for any byte input, provided fileCount + fileStep stays below the byte
wrap), playPrev with fileStep = 1 preserves [1, fileCount], and the
mode-change into Book sets the file to 1; but the invariant is not global:
the EEPROM load does not sanitize the file byte, and the settings reset
deliberately stores the sentinel 0. -/
theorem claim_C9_amended :
    (∀ fileStep fileCount file : Nat,
        1 ≤ file → file ≤ fileCount → fileStep ≤ 2 → fileCount ≤ 253 →
        1 ≤ playNextFile fileStep fileCount file ∧
        playNextFile fileStep fileCount file ≤ fileCount) ∧
    (∀ fileCount file : Nat,
        1 ≤ file → file ≤ fileCount → fileCount ≤ 255 →
        1 ≤ playPrevFile 1 fileCount file ∧
        playPrevFile 1 fileCount file ≤ fileCount) ∧
    (∀ s : ModeSt, s.mode = Short → (applyL2 s).st.file = 1) ∧
    (∀ e : Nat → Nat, (loadSettings e).file = e fileAddr) ∧
    (∀ s : Settings, (resetSettings s).file = 0) := by
  refine ⟨?_, ?_, ?_, fun _ => rfl, fun _ => rfl⟩
  · intro fileStep fileCount file h1 h2 h3 h4
    have hw : (file + fileStep) % 256 = file + fileStep := by
      apply Nat.mod_eq_of_lt; omega
    simp only [playNextFile, hw]
    split <;> omega
  · intro fileCount file h1 h2 h3
    simp only [playPrevFile, byteOfInt, Nat.cast_one]
    split
    · have hz : ((fileCount : Int) - 1 + 1) % 256 = (fileCount : Int) := by
        rw [show ((fileCount : Int) - 1 + 1) = (fileCount : Int) by ring]
        apply Int.emod_eq_of_lt <;> omega
      rw [hz]
      omega
    · have hz : ((file : Int) - 1) % 256 = (file : Int) - 1 := by
        apply Int.emod_eq_of_lt <;> omega
      rw [hz]
      omega
  · intro s h
    simp [applyL2, h, Short, Book, modeCount]

/-- C9 witness: the amended theorem applied at concrete inputs. -/
theorem claim_C9_amended_witness :
    (1 ≤ playNextFile 1 10 10 ∧ playNextFile 1 10 10 ≤ 10) ∧
    (1 ≤ playPrevFile 1 10 1 ∧ playPrevFile 1 10 1 ≤ 10) := by
  exact ⟨claim_C9_amended.1 1 10 10 (by decide) (by decide) (by decide)
           (by decide),
         claim_C9_amended.2.1 10 1 (by decide) (by decide) (by decide)⟩

/-! ## Periodic section of loop() (C5)

The part of loop() that runs after the input state machine on every
iteration: rearm timer3 while the player is busy, run the Short-mode fade,
and the guarded autoplay.  The decoder is quiescent during these claims
(state 0, line idle), so only the periodic code can act.  The file chosen
by playRandom is supplied as an input `drawn`; the selector itself is
modelled separately below. -/

structure CtlSt where
  mode : Nat
  paused : Bool
  interval : Nat
  count : Nat
  playCount : Nat
  state : Nat
  timer2 : Nat
  timer3 : Nat
  file : Nat
  prevFile : Nat
deriving DecidableEq

structure PollIn where
  busy : Bool
  btn : Bool
  now : Nat
  drawn : Nat
deriving DecidableEq

/-- first periodic item: while the player is busy, keep rearming timer3. -/
def busyRearm (i : PollIn) (s : CtlSt) : CtlSt :=
  if i.busy then
    { s with timer3 := i.now + intArray.getD s.interval 0 * 1000 } else s

/-- second periodic item: the Short-mode fade (the fade, stop and volume
restore go to the player; the controller state change is paused := false). -/
def shortFade (i : PollIn) (s : CtlSt) : CtlSt :=
  if s.mode = Short ∧ i.busy = true ∧ i.now > s.timer2 then
    { s with paused := false } else s

/-- guard of the autoplay block (the four nested ifs of the source). -/
def autoGuard (i : PollIn) (s : CtlSt) : Prop :=
  s.mode ≠ Book ∧ s.paused = false ∧ intArray.getD s.interval 0 ≠ 0 ∧
    i.btn = false ∧ s.state = 0 ∧ i.busy = false ∧ i.now > s.timer3 ∧
    (cntArray.getD s.count 0 = 0 ∨ s.playCount < cntArray.getD s.count 0)

instance (i : PollIn) (s : CtlSt) : Decidable (autoGuard i s) := by
  unfold autoGuard; infer_instance

/-- one pass over the periodic section; the returned flag records whether
a play command was issued (autoplay fired). -/
def periodicStep (i : PollIn) (s : CtlSt) : CtlSt × Bool :=
  let s2 := shortFade i (busyRearm i s)
  if autoGuard i s2 then
    ({ s2 with prevFile := s2.file, file := i.drawn,
               playCount := s2.playCount + 1,
               timer2 := i.now + playTime, paused := false }, true)
  else (s2, false)

/-- iterate the periodic section over a list of poll inputs, counting the
play commands issued. -/
def runPeriodic : List PollIn → CtlSt → CtlSt × Nat
  | [], s => (s, 0)
  | i :: is, s =>
    let r := periodicStep i s
    let t := runPeriodic is r.1
    (t.1, (if r.2 then 1 else 0) + t.2)

theorem busyRearm_fields (i : PollIn) (s : CtlSt) :
    (busyRearm i s).mode = s.mode ∧ (busyRearm i s).paused = s.paused ∧
    (busyRearm i s).interval = s.interval ∧
    (busyRearm i s).count = s.count ∧
    (busyRearm i s).playCount = s.playCount ∧
    (busyRearm i s).state = s.state := by
  unfold busyRearm
  split <;> exact ⟨rfl, rfl, rfl, rfl, rfl, rfl⟩

theorem shortFade_fields (i : PollIn) (s : CtlSt) :
    (shortFade i s).mode = s.mode ∧ (shortFade i s).interval = s.interval ∧
    (shortFade i s).count = s.count ∧
    (shortFade i s).playCount = s.playCount ∧
    (shortFade i s).state = s.state ∧ (shortFade i s).timer3 = s.timer3 := by
  unfold shortFade
  split <;> exact ⟨rfl, rfl, rfl, rfl, rfl, rfl⟩

theorem busyRearm_idle (i : PollIn) (s : CtlSt) (h : i.busy = false) :
    busyRearm i s = s := by
  unfold busyRearm
  rw [h]
  rfl

theorem shortFade_idle (i : PollIn) (s : CtlSt) (h : i.busy = false) :
    shortFade i s = s := by
  unfold shortFade
  rw [h]
  simp

theorem periodicStep_count (i : PollIn) (s : CtlSt) :
    ((periodicStep i s).1).count = s.count := by
  simp only [periodicStep]
  split <;>
    simp [(shortFade_fields i (busyRearm i s)).2.2.1,
      (busyRearm_fields i s).2.2.2.1]

theorem periodicStep_playCount (i : PollIn) (s : CtlSt) :
    ((periodicStep i s).1).playCount
      = s.playCount + (if (periodicStep i s).2 then 1 else 0) := by
  simp only [periodicStep]
  by_cases hg : autoGuard i (shortFade i (busyRearm i s))
  · simp only [if_pos hg]
    simp [(shortFade_fields i (busyRearm i s)).2.2.2.1,
      (busyRearm_fields i s).2.2.2.2.1]
  · simp only [if_neg hg]
    simp [(shortFade_fields i (busyRearm i s)).2.2.2.1,
      (busyRearm_fields i s).2.2.2.2.1]

theorem periodicStep_fired (i : PollIn) (s : CtlSt)
    (h : (periodicStep i s).2 = true) :
    autoGuard i s := by
  simp only [periodicStep] at h
  split at h
  · next hg =>
    have hbusy : i.busy = false := hg.2.2.2.2.2.1
    rw [busyRearm_idle i s hbusy, shortFade_idle i s hbusy] at hg
    exact hg
  · exact absurd h (by simp)

/-- C5: (1) whenever the periodic check issues a play command, the mode is
not Book, the controller is not paused, the interval setting is not "off",
the decoder is in state 0, the input line is idle, the player is idle, and
the autoplay deadline has passed with the play-count gate open;
(2) with a repeat-count cap k configured (cntArray[count] ≠ 0) and no
button input, any number of further iterations issues at most
k - playCount play commands — in particular none once playCount reached k. -/
theorem claim_C5 :
    (∀ (i : PollIn) (s : CtlSt), (periodicStep i s).2 = true →
        s.mode ≠ Book ∧ s.paused = false ∧ intArray.getD s.interval 0 ≠ 0 ∧
        i.btn = false ∧ s.state = 0 ∧ i.busy = false ∧ i.now > s.timer3 ∧
        (cntArray.getD s.count 0 = 0 ∨
          s.playCount < cntArray.getD s.count 0)) ∧
    (∀ (is : List PollIn) (s : CtlSt),
        (∀ i ∈ is, i.btn = false) →
        cntArray.getD s.count 0 ≠ 0 →
        (runPeriodic is s).2 ≤ cntArray.getD s.count 0 - s.playCount) := by
  constructor
  · intro i s h
    exact periodicStep_fired i s h
  · intro is
    induction is with
    | nil => intro s _ _; simp [runPeriodic]
    | cons i is ih =>
      intro s hbtn hk
      have hk1 : cntArray.getD ((periodicStep i s).1).count 0 ≠ 0 := by
        rw [periodicStep_count]; exact hk
      have htail := ih (periodicStep i s).1
        (fun j hj => hbtn j (List.mem_cons_of_mem i hj)) hk1
      rw [periodicStep_count] at htail
      rw [periodicStep_playCount] at htail
      simp only [runPeriodic]
      cases hf : (periodicStep i s).2
      · rw [hf] at htail
        rw [show (if (false : Bool) = true then (1 : Nat) else 0) = 0 from rfl]
          at htail ⊢
        omega
      · have hlt : s.playCount < cntArray.getD s.count 0 := by
          rcases (periodicStep_fired i s hf).2.2.2.2.2.2.2 with h0 | hlt
          · exact absurd h0 hk
          · exact hlt
        rw [hf] at htail
        rw [show (if (true : Bool) = true then (1 : Nat) else 0) = 1 from rfl]
          at htail ⊢
        omega

/-- C5 witness: part (1) applied to a concrete firing step, and part (2)
applied to a concrete input list. -/
theorem claim_C5_witness :
    (({ mode := Full, paused := false, interval := 0, count := 0,
        playCount := 0, state := 0, timer2 := 0, timer3 := 0,
        file := 1, prevFile := 1 } : CtlSt).mode ≠ Book ∧
      True ∧
      (runPeriodic [{ busy := false, btn := false, now := 6000, drawn := 2 }]
        { mode := Full, paused := false, interval := 0, count := 0,
          playCount := 1, state := 0, timer2 := 0, timer3 := 0,
          file := 1, prevFile := 1 }).2 ≤ 1 - 1) := by
  refine ⟨?_, trivial, ?_⟩
  · exact (claim_C5.1
      { busy := false, btn := false, now := 6000, drawn := 2 }
      { mode := Full, paused := false, interval := 0, count := 0,
        playCount := 0, state := 0, timer2 := 0, timer3 := 0,
        file := 1, prevFile := 1 } (by decide)).1
  · exact claim_C5.2
      [{ busy := false, btn := false, now := 6000, drawn := 2 }]
      { mode := Full, paused := false, interval := 0, count := 0,
        playCount := 1, state := 0, timer2 := 0, timer3 := 0,
        file := 1, prevFile := 1 }
      (by intro i hi; simp at hi; rw [hi]) (by decide)

/-! ## Randomized file selector (randomNumber / playRandom, C2/C3/C8)

randomNumber() keeps a static table, cursor (pos) and last value (prev)
across calls; they are modelled as an explicit state.  The static
initializers `pos = n` and `prev = n` run at the first call, and the
static array starts zeroed.  `g` is the stream of raw values produced by
the Arduino random() source. -/

structure SelSt where
  table : List Nat
  pos : Nat
  prev : Nat
  k : Nat
deriving DecidableEq

/-- the swap of the Fisher-Yates loop body (temp / assignment pair). -/
def swapL (l : List Nat) (i j : Nat) : List Nat :=
  (l.set i (l.getD j 0)).set j (l.getD i 0)

/-- the shuffle loop `for (byte i = n - 1; i > 0; i--)`: at index i it
swaps entry i with entry random(i + 1); the second component threads the
count of random() calls consumed so far. -/
def shuffleGo (g : Nat → Nat) : Nat → Nat → List Nat → List Nat × Nat
  | k, 0, l => (l, k)
  | k, i+1, l => shuffleGo g (k+1) i (swapL l (i+1) (g k % (i+2)))

/-- table regeneration inside randomNumber(): refill with 0..m-1, shuffle,
reset the cursor, and skip one entry when the fresh first entry equals the
previous draw (only for m > 1). -/
def regenState (g : Nat → Nat) (m : Nat) (s : SelSt) : SelSt :=
  let r := shuffleGo g s.k (m - 1) (List.range m)
  let p := if 1 < m ∧ r.1.getD 0 0 = s.prev then 1 else 0
  { table := r.1, pos := p, prev := s.prev, k := r.2 }

/-- one call of randomNumber(n): clamp n to N - 1, regenerate the table if
the cursor reached the end, then return the entry at the cursor and
advance it, remembering the value in prev. -/
def randomNumber (g : Nat → Nat) (n : Nat) (s : SelSt) : Nat × SelSt :=
  let m := min n (N - 1)
  let s1 := if s.pos = m then regenState g m s else s
  let v := s1.table.getD s1.pos 0
  (v, { s1 with prev := v, pos := s1.pos + 1 })

/-- selector state at the very first call of randomNumber(fileCount):
static zeroed array, pos = prev = fileCount. -/
def selInit (n : Nat) : SelSt :=
  { table := List.replicate N 0, pos := n, prev := n, k := 0 }

/-- odd-only adjustment inside playRandom():
`if (fileStep == 2 and file % 2 == 0) file++;`. -/
def bumpFile (fileStep f : Nat) : Nat :=
  if fileStep = 2 ∧ f % 2 = 0 then f + 1 else f

/-- exit condition of the playRandom() do-while, negated:
the loop repeats `while (file == prevFile or file > fileCount)`. -/
def acceptFile (fileCount prevFile f : Nat) : Bool :=
  !(f == prevFile || decide (fileCount < f))

/-- the do-while of playRandom(), fuel-bounded: draw, apply the odd-only
bump, stop at the first accepted file.  `none` means the fuel ran out with
every draw rejected. -/
def playRandomGo (g : Nat → Nat) (fileStep fileCount prevFile : Nat) :
    Nat → SelSt → Option (Nat × SelSt)
  | 0, _ => none
  | fuel+1, s =>
    let r := randomNumber g fileCount s
    let f := bumpFile fileStep (r.1 + 1)
    if acceptFile fileCount prevFile f then some (f, r.2)
    else playRandomGo g fileStep fileCount prevFile fuel r.2

/-- selector state after t draws. -/
def drawIter (g : Nat → Nat) (n : Nat) (s : SelSt) : Nat → SelSt
  | 0 => s
  | t+1 => (randomNumber g n (drawIter g n s t)).2

/-- raw value produced by draw number t (counting from 0). -/
def outAt (g : Nat → Nat) (n : Nat) (s : SelSt) (t : Nat) : Nat :=
  (randomNumber g n (drawIter g n s t)).1

/-- list of the first t raw draws, in order. -/
def drawList (g : Nat → Nat) (n : Nat) (s : SelSt) : Nat → List Nat
  | 0 => []
  | t+1 => drawList g n s t ++ [outAt g n s t]

/-! ## Theorems for C3 (playRandom output constraints) -/

/-- C3: whenever the playRandom retry loop terminates, the file it plays
is odd if the odd-only constraint is active (fileStep = 2), lies in
[1, fileCount], and differs from the previous file. -/
theorem claim_C3 (g : Nat → Nat) (fileStep fileCount prevFile fuel : Nat)
    (s : SelSt) (f : Nat) (s2 : SelSt)
    (h : playRandomGo g fileStep fileCount prevFile fuel s = some (f, s2)) :
    (fileStep = 2 → f % 2 = 1) ∧ 1 ≤ f ∧ f ≤ fileCount ∧ f ≠ prevFile := by
  induction fuel generalizing s with
  | zero => exact absurd h (by simp [playRandomGo])
  | succ fuel ih =>
    rw [playRandomGo] at h
    split at h
    · next ha =>
      have hf : f = bumpFile fileStep ((randomNumber g fileCount s).1 + 1) := by
        injection h with h1
        injection h1 with h2 h3
        exact h2.symm
      subst hf
      have haa := ha
      simp only [acceptFile, Bool.not_eq_eq_eq_not, Bool.not_true,
        Bool.or_eq_false_iff, beq_eq_false_iff_ne, decide_eq_false_iff_not,
        not_lt] at haa
      refine ⟨?_, ?_, haa.2, haa.1⟩
      · intro h2
        subst h2
        simp only [bumpFile]
        by_cases hpar : ((randomNumber g fileCount s).1 + 1) % 2 = 0
        · rw [if_pos ⟨by trivial, hpar⟩]
          omega
        · rw [if_neg (by simp [hpar])]
          omega
      · simp only [bumpFile]
        split <;> omega
    · exact ih _ h

set_option maxRecDepth 4000 in
/-- C3 witness: a concrete terminating run with the odd-only constraint
active (fileStep = 2, fileCount = 3, prevFile = 1) plays file 3. -/
theorem claim_C3_witness :
    ((2 : Nat) = 2 → (3 : Nat) % 2 = 1) ∧ (1 : Nat) ≤ 3 ∧ (3 : Nat) ≤ 3 ∧
      (3 : Nat) ≠ 1 :=
  claim_C3 (fun _ => 0) 2 3 1 10 (selInit 3) 3
    { table := [1, 2, 0], pos := 1, prev := 1, k := 2 } (by decide)

/-! ## Theorems for C8 (termination of the playRandom retry loop) -/

set_option maxRecDepth 8000 in
/-- C8 counterexample: with fileCount = 1 and prevFile = 1 the retry loop
never terminates — the selector state
{ table := [0], pos := 1, prev := 0 } is a fixed point of the draw whose
output (file 1) is always rejected, and the loop still returns none after
300 retries from the boot state. -/
theorem claim_C8_counterexample :
    randomNumber (fun _ => 0) 1 { table := [0], pos := 1, prev := 0, k := 0 }
      = (0, { table := [0], pos := 1, prev := 0, k := 0 }) ∧
    acceptFile 1 1 (bumpFile 1 (0 + 1)) = false ∧
    playRandomGo (fun _ => 0) 1 1 1 300 (selInit 1) = none := by
  refine ⟨by decide, by decide, by decide⟩

/-! ## Permutation facts about the Fisher-Yates shuffle -/

theorem cons_set_perm (l : List Nat) :
    ∀ (m : Nat) (a : Nat), m < l.length →
      (l.getD m 0 :: l.set m a).Perm (a :: l) := by
  induction l with
  | nil => intro m a h; simp at h
  | cons b l ih =>
    intro m a h
    cases m with
    | zero =>
      simp only [List.getD_cons_zero, List.set_cons_zero]
      exact List.Perm.swap a b l
    | succ m =>
      simp only [List.getD_cons_succ, List.set_cons_succ]
      refine List.Perm.trans
        (List.Perm.swap b (l.getD m 0) (l.set m a)) ?_
      refine List.Perm.trans ((ih m a (by simpa using h)).cons b) ?_
      exact List.Perm.swap a b l

theorem swapL_perm (l : List Nat) :
    ∀ (i j : Nat), i < l.length → j < l.length →
      (swapL l i j).Perm l := by
  induction l with
  | nil => intro i j hi _; simp at hi
  | cons a l ih =>
    intro i j hi hj
    cases i with
    | zero =>
      cases j with
      | zero =>
        simp only [swapL, List.getD_cons_zero, List.set_cons_zero]
        exact List.Perm.refl _
      | succ j =>
        simp only [swapL, List.getD_cons_succ, List.getD_cons_zero,
          List.set_cons_zero, List.set_cons_succ]
        exact cons_set_perm l j a (by simpa using hj)
    | succ i =>
      cases j with
      | zero =>
        simp only [swapL, List.getD_cons_zero, List.getD_cons_succ,
          List.set_cons_succ, List.set_cons_zero]
        exact cons_set_perm l i a (by simpa using hi)
      | succ j =>
        simp only [swapL, List.getD_cons_succ, List.set_cons_succ]
        exact (ih i j (by simpa using hi) (by simpa using hj)).cons a

theorem shuffleGo_perm (g : Nat → Nat) :
    ∀ (i k : Nat) (l : List Nat), i < l.length →
      ((shuffleGo g k i l).1).Perm l := by
  intro i
  induction i with
  | zero =>
    intro k l _
    exact List.Perm.refl _
  | succ i ih =>
    intro k l h
    have hjlt : g k % (i + 2) < l.length := by
      have := Nat.mod_lt (g k) (show 0 < i + 2 by omega)
      omega
    have hsw : (swapL l (i + 1) (g k % (i + 2))).Perm l :=
      swapL_perm l (i + 1) (g k % (i + 2)) h hjlt
    have hlen : (swapL l (i + 1) (g k % (i + 2))).length = l.length :=
      hsw.length_eq
    exact List.Perm.trans (ih (k + 1) _ (by rw [hlen]; omega)) hsw

/-- freshly shuffled table inside regenState. -/
def regenTable (g : Nat → Nat) (k m : Nat) : List Nat :=
  (shuffleGo g k (m - 1) (List.range m)).1

/-- count of random() calls consumed after a regeneration. -/
def regenK (g : Nat → Nat) (k m : Nat) : Nat :=
  (shuffleGo g k (m - 1) (List.range m)).2

theorem regenTable_perm (g : Nat → Nat) (k m : Nat) (hm : 1 ≤ m) :
    (regenTable g k m).Perm (List.range m) :=
  shuffleGo_perm g (m - 1) k (List.range m)
    (by rw [List.length_range]; omega)

theorem regenTable_nodup (g : Nat → Nat) (k m : Nat) (hm : 1 ≤ m) :
    (regenTable g k m).Nodup :=
  ((regenTable_perm g k m hm).nodup_iff).mpr (List.nodup_range m)

theorem regenTable_length (g : Nat → Nat) (k m : Nat) (hm : 1 ≤ m) :
    (regenTable g k m).length = m :=
  ((regenTable_perm g k m hm).length_eq).trans (List.length_range m)

theorem regenTable_mem (g : Nat → Nat) (k m : Nat) (hm : 1 ≤ m) (v : Nat)
    (hv : v < m) : v ∈ regenTable g k m :=
  ((regenTable_perm g k m hm).mem_iff).mpr (List.mem_range.mpr hv)

theorem regenTable_lt (g : Nat → Nat) (k m : Nat) (hm : 1 ≤ m) (v : Nat)
    (hv : v ∈ regenTable g k m) : v < m :=
  List.mem_range.mp (((regenTable_perm g k m hm).mem_iff).mp hv)

theorem nodup_getD_ne (l : List Nat) (h : l.Nodup) (i j : Nat)
    (hi : i < l.length) (hj : j < l.length) (hij : i ≠ j) :
    l.getD i 0 ≠ l.getD j 0 := by
  intro he
  apply hij
  have h2 : l.get ⟨i, hi⟩ = l.get ⟨j, hj⟩ := by
    rw [List.getD_eq_getElem l 0 hi, List.getD_eq_getElem l 0 hj] at he
    simpa [List.get_eq_getElem] using he
  exact congrArg Fin.val (h.get_inj_iff.mp h2)

theorem mem_getD_index (l : List Nat) (v : Nat) (h : v ∈ l) :
    ∃ i, i < l.length ∧ l.getD i 0 = v := by
  rcases List.mem_iff_get.mp h with ⟨i, hi⟩
  refine ⟨i.val, i.isLt, ?_⟩
  rw [List.getD_eq_getElem l 0 i.isLt]
  rw [← List.get_eq_getElem]
  exact hi

theorem getD_mem (l : List Nat) (i : Nat) (h : i < l.length) :
    l.getD i 0 ∈ l := by
  rw [List.getD_eq_getElem l 0 h]
  exact List.getElem_mem h

/-! ## Unfolding lemmas for randomNumber draws -/

theorem randomNumber_lt (g : Nat → Nat) (n : Nat) (s : SelSt) (hn : n < N)
    (hpos : s.pos < n) :
    randomNumber g n s =
      (s.table.getD s.pos 0,
       { table := s.table, pos := s.pos + 1,
         prev := s.table.getD s.pos 0, k := s.k }) := by
  have hn2 : n < 128 := by simpa [N] using hn
  have hm : min n (N - 1) = n := by
    simp only [N]
    omega
  simp only [randomNumber, hm, if_neg (show ¬ s.pos = n by omega)]

theorem randomNumber_regen (g : Nat → Nat) (n : Nat) (s : SelSt)
    (hn : n < N) (hpos : s.pos = n) :
    randomNumber g n s =
      ((regenTable g s.k n).getD
          (if 1 < n ∧ (regenTable g s.k n).getD 0 0 = s.prev then 1 else 0) 0,
       { table := regenTable g s.k n
       , pos := (if 1 < n ∧ (regenTable g s.k n).getD 0 0 = s.prev
                 then 1 else 0) + 1
       , prev := (regenTable g s.k n).getD
           (if 1 < n ∧ (regenTable g s.k n).getD 0 0 = s.prev then 1 else 0) 0
       , k := regenK g s.k n }) := by
  have hn2 : n < 128 := by simpa [N] using hn
  have hm : min n (N - 1) = n := by
    simp only [N]
    omega
  simp only [randomNumber, hm, if_pos hpos, regenState, regenTable, regenK]

theorem drawIter_add (g : Nat → Nat) (n : Nat) (s : SelSt) (a t : Nat) :
    drawIter g n s (a + t) = drawIter g n (drawIter g n s a) t := by
  induction t with
  | zero => rfl
  | succ t ih =>
    show (randomNumber g n (drawIter g n s (a + t))).2 = _
    rw [ih]
    rfl

theorem outAt_add (g : Nat → Nat) (n : Nat) (s : SelSt) (a t : Nat) :
    outAt g n s (a + t) = outAt g n (drawIter g n s a) t := by
  unfold outAt
  rw [drawIter_add]

theorem drawIter_window (g : Nat → Nat) (n : Nat) (hn : n < N) :
    ∀ (j : Nat) (s : SelSt), 1 ≤ j → s.pos + j ≤ n →
      drawIter g n s j =
        { table := s.table, pos := s.pos + j,
          prev := s.table.getD (s.pos + j - 1) 0, k := s.k } := by
  intro j
  induction j with
  | zero =>
    intro s h1 _
    exact absurd h1 (by omega)
  | succ j ih =>
    intro s h1 h2
    cases j with
    | zero =>
      show (randomNumber g n (drawIter g n s 0)).2 = _
      rw [show drawIter g n s 0 = s from rfl]
      rw [randomNumber_lt g n s hn (by omega)]
      rfl
    | succ j =>
      show (randomNumber g n (drawIter g n s (j + 1))).2 = _
      rw [ih s (by omega) (by omega)]
      rw [randomNumber_lt g n _ hn
        (by show s.pos + (j + 1) < n; omega)]
      rfl

theorem outAt_window (g : Nat → Nat) (n : Nat) (hn : n < N) (j : Nat)
    (s : SelSt) (h : s.pos + j < n) :
    outAt g n s j = s.table.getD (s.pos + j) 0 := by
  cases j with
  | zero =>
    show (randomNumber g n s).1 = _
    rw [randomNumber_lt g n s hn (by omega)]
    rfl
  | succ j =>
    show (randomNumber g n (drawIter g n s (j + 1))).1 = _
    rw [drawIter_window g n hn (j + 1) s (by omega) (by omega)]
    rw [randomNumber_lt g n _ hn (by show s.pos + (j + 1) < n; omega)]

/-! ## Theorems for C2 (selector permutation and no-repeat) -/

theorem drawList_map (g : Nat → Nat) (n : Nat) (s : SelSt) :
    ∀ t, drawList g n s t = (List.range t).map (outAt g n s) := by
  intro t
  induction t with
  | zero => rfl
  | succ t ih =>
    simp only [drawList, List.range_succ, List.map_append, ih,
      List.map_cons, List.map_nil]

theorem selInit_first (g : Nat → Nat) (n : Nat) (h1 : 1 ≤ n) (hn : n < N) :
    randomNumber g n (selInit n) =
      ((regenTable g 0 n).getD 0 0,
       { table := regenTable g 0 n, pos := 1,
         prev := (regenTable g 0 n).getD 0 0, k := regenK g 0 n }) := by
  have hT0 : (regenTable g 0 n).getD 0 0 < n :=
    regenTable_lt g 0 n h1 _
      (getD_mem _ 0 (by rw [regenTable_length g 0 n h1]; omega))
  rw [randomNumber_regen g n (selInit n) hn rfl]
  rw [if_neg (show ¬ (1 < n ∧
      (regenTable g (selInit n).k n).getD 0 0 = (selInit n).prev) by
    rintro ⟨_, he⟩
    have : (selInit n).prev = n := rfl
    rw [this] at he
    have : (selInit n).k = 0 := rfl
    rw [this] at he
    omega)]
  have hk : (selInit n).k = 0 := rfl
  rw [hk]

theorem firstWindow_eq (g : Nat → Nat) (n : Nat) (h2 : 2 ≤ n) (hn : n < N) :
    drawList g n (selInit n) n = regenTable g 0 n := by
  have hTlen : (regenTable g 0 n).length = n :=
    regenTable_length g 0 n (by omega)
  have hout : ∀ t, t < n →
      outAt g n (selInit n) t = (regenTable g 0 n).getD t 0 := by
    intro t ht
    cases t with
    | zero =>
      show (randomNumber g n (selInit n)).1 = _
      rw [selInit_first g n (by omega) hn]
    | succ t =>
      have hshift : outAt g n (selInit n) (t + 1)
          = outAt g n (randomNumber g n (selInit n)).2 t := by
        rw [show t + 1 = 1 + t by omega, outAt_add]
        rfl
      rw [hshift, selInit_first g n (by omega) hn]
      rw [outAt_window g n hn t _ (by show 1 + t < n; omega)]
      rw [show 1 + t = t + 1 by omega]
  rw [drawList_map]
  apply List.ext_get
  · simp [hTlen]
  · intro i hi1 hi2
    have hi : i < n := by rw [hTlen] at hi2; exact hi2
    simp only [List.get_eq_getElem, List.getElem_map, List.getElem_range]
    rw [← List.getD_eq_getElem (regenTable g 0 n) 0 hi2]
    exact hout i hi

theorem firstWindow_perm (g : Nat → Nat) (n : Nat) (h2 : 2 ≤ n)
    (hn : n < N) :
    ((drawList g n (selInit n) n).map (· + 1)).Perm (List.range' 1 n) := by
  rw [firstWindow_eq g n h2 hn]
  have hp : ((regenTable g 0 n).map (· + 1)).Perm
      ((List.range n).map (· + 1)) :=
    (regenTable_perm g 0 n (by omega)).map _
  refine hp.trans ?_
  rw [List.range'_eq_map_range]
  have he : (List.range n).map (· + 1)
      = (List.range n).map (fun x => 1 + x) := by
    apply List.map_congr_left
    intro x _
    omega
  rw [he]

/-- state invariant of the selector after at least one draw: the table is
a permutation of 0..n-1, the cursor is in (0, n], and prev is the entry
just behind the cursor. -/
def SelInv (n : Nat) (s : SelSt) : Prop :=
  s.table.Perm (List.range n) ∧ 1 ≤ s.pos ∧ s.pos ≤ n ∧
    s.prev = s.table.getD (s.pos - 1) 0

theorem randomNumber_inv (g : Nat → Nat) (n : Nat) (s : SelSt)
    (h2 : 2 ≤ n) (hn : n < N) (hs : SelInv n s) :
    SelInv n (randomNumber g n s).2 ∧ (randomNumber g n s).1 ≠ s.prev := by
  rcases hs with ⟨hp, hp1, hp2, hprev⟩
  have hlen : s.table.length = n := hp.length_eq.trans (List.length_range n)
  have hnd : s.table.Nodup := hp.nodup_iff.mpr (List.nodup_range n)
  rcases Nat.lt_or_ge s.pos n with hlt | hge
  · rw [randomNumber_lt g n s hn hlt]
    refine ⟨⟨hp, by show 1 ≤ s.pos + 1; omega,
      by show s.pos + 1 ≤ n; omega, rfl⟩, ?_⟩
    rw [hprev]
    exact nodup_getD_ne _ hnd _ _ (by omega) (by omega) (by omega)
  · have hpos : s.pos = n := by omega
    rw [randomNumber_regen g n s hn hpos]
    have hTp : (regenTable g s.k n).Perm (List.range n) :=
      regenTable_perm g s.k n (by omega)
    have hTlen : (regenTable g s.k n).length = n :=
      hTp.length_eq.trans (List.length_range n)
    have hTnd : (regenTable g s.k n).Nodup :=
      hTp.nodup_iff.mpr (List.nodup_range n)
    by_cases hskip : 1 < n ∧ (regenTable g s.k n).getD 0 0 = s.prev
    · rw [if_pos hskip]
      refine ⟨⟨hTp, by show 1 ≤ 1 + 1; omega,
        by show 1 + 1 ≤ n; omega, rfl⟩, ?_⟩
      rw [← hskip.2]
      exact nodup_getD_ne _ hTnd 1 0 (by omega) (by omega) (by omega)
    · rw [if_neg hskip]
      refine ⟨⟨hTp, by show 1 ≤ 0 + 1; omega,
        by show 0 + 1 ≤ n; omega, rfl⟩, ?_⟩
      intro he
      exact hskip ⟨by omega, he⟩

theorem selInit_inv (g : Nat → Nat) (n : Nat) (h2 : 2 ≤ n) (hn : n < N) :
    ∀ t, SelInv n (drawIter g n (selInit n) (t + 1)) := by
  intro t
  induction t with
  | zero =>
    show SelInv n (randomNumber g n (selInit n)).2
    rw [selInit_first g n (by omega) hn]
    exact ⟨regenTable_perm g 0 n (by omega), by show (1 : Nat) ≤ 1; omega,
      by show 1 ≤ n; omega, rfl⟩
  | succ t ih =>
    show SelInv n (randomNumber g n (drawIter g n (selInit n) (t + 1))).2
    exact (randomNumber_inv g n _ h2 hn ih).1

theorem consecutive_ne (g : Nat → Nat) (n : Nat) (h2 : 2 ≤ n) (hn : n < N)
    (t : Nat) :
    outAt g n (selInit n) (t + 1) ≠ outAt g n (selInit n) t := by
  have hinv := selInit_inv g n h2 hn t
  have h := (randomNumber_inv g n (drawIter g n (selInit n) (t + 1))
    h2 hn hinv).2
  have hprev : (drawIter g n (selInit n) (t + 1)).prev
      = outAt g n (selInit n) t := rfl
  rw [hprev] at h
  exact h

/-- C2 counterexample: a window of fileCount consecutive draws starting
from a freshly regenerated table need not be a permutation of
[1, fileCount].  With fileCount = 3 and random() stream 2,1,0,1,0,0 the
first table is [0,1,2]; after it is exhausted (cursor = 3 before draw 3),
the second table regenerates as [2,1,0], its first entry 2 equals the
previous draw, so the cursor skips it, and draws 3,4,5 yield files
[2,1,2] — file 3 is missing and file 2 repeats. -/
theorem claim_C2_counterexample :
    (drawIter (fun t => [2, 1, 0, 1, 0, 0].getD t 0) 3 (selInit 3) 3).pos
        = 3 ∧
    ([outAt (fun t => [2, 1, 0, 1, 0, 0].getD t 0) 3 (selInit 3) 3,
      outAt (fun t => [2, 1, 0, 1, 0, 0].getD t 0) 3 (selInit 3) 4,
      outAt (fun t => [2, 1, 0, 1, 0, 0].getD t 0) 3 (selInit 3) 5].map
        (· + 1)) = [2, 1, 2] ∧
    ¬ (([2, 1, 2] : List Nat).Perm (List.range' 1 3)) := by
  refine ⟨by decide, by decide, by decide⟩

/-- C2 amended: for 1 < fileCount < 128 and every random() stream, the
first fileCount draws (from the fresh initial table) together with the
caller's +1 shift return each value of [1, fileCount] exactly once, and no
two consecutive draws are ever equal, including across shuffle-table
regenerations; but a window starting at a later regeneration whose first
entry was skipped may miss one value (see the counterexample). -/
theorem claim_C2_amended (g : Nat → Nat) (n : Nat) (h1 : 1 < n)
    (hn : n < 128) :
    ((drawList g n (selInit n) n).map (· + 1)).Perm (List.range' 1 n) ∧
    ∀ t, outAt g n (selInit n) (t + 1) ≠ outAt g n (selInit n) t := by
  have hN : n < N := by simpa [N] using hn
  exact ⟨firstWindow_perm g n (by omega) hN,
         fun t => consecutive_ne g n (by omega) hN t⟩

/-- C2 witness: the amended theorem applied at fileCount = 3 with the
all-zero random() stream. -/
theorem claim_C2_amended_witness :
    ((drawList (fun _ => 0) 3 (selInit 3) 3).map (· + 1)).Perm
        (List.range' 1 3) ∧
    ∀ t, outAt (fun _ => 0) 3 (selInit 3) (t + 1)
        ≠ outAt (fun _ => 0) 3 (selInit 3) t :=
  claim_C2_amended (fun _ => 0) 3 (by decide) (by decide)

/-! ## Termination of the playRandom retry loop (C8 amended) -/

theorem playRandomGo_none (g : Nat → Nat) (fs n pf : Nat) :
    ∀ (fuel : Nat) (s : SelSt),
      playRandomGo g fs n pf fuel s = none →
      ∀ t, t < fuel →
        acceptFile n pf (bumpFile fs (outAt g n s t + 1)) = false := by
  intro fuel
  induction fuel with
  | zero =>
    intro s _ t ht
    exact absurd ht (by omega)
  | succ fuel ih =>
    intro s h t ht
    simp only [playRandomGo] at h
    split at h
    · exact absurd h (by simp)
    · next hrej =>
      cases t with
      | zero =>
        exact Bool.eq_false_iff.mpr hrej
      | succ t =>
        have hsh : outAt g n s (t + 1)
            = outAt g n (randomNumber g n s).2 t := by
          rw [show t + 1 = 1 + t by omega, outAt_add]
          rfl
        rw [hsh]
        exact ih _ h t (by omega)

/-- one full pass after a table regeneration: starting at a state whose
cursor has reached the end, either the wanted value v0 is drawn within the
next n - 1 draws, or the regeneration skipped it, in which case v0 was the
previous draw and after the pass the cursor is again at the end with a
different previous value. -/
theorem regen_phase (g : Nat → Nat) (n : Nat) (hN : n < N) (h2 : 2 ≤ n)
    (A : SelSt) (hpos : A.pos = n) (v0 : Nat) (hv0 : v0 < n) :
    (∃ t, t ≤ n - 1 ∧ outAt g n A t = v0) ∨
      (A.prev = v0 ∧ (drawIter g n A (n - 1)).pos = n ∧
        (drawIter g n A (n - 1)).prev ≠ v0) := by
  have hdraw := randomNumber_regen g n A hN hpos
  have hTp : (regenTable g A.k n).Perm (List.range n) :=
    regenTable_perm g A.k n (by omega)
  have hTlen : (regenTable g A.k n).length = n :=
    hTp.length_eq.trans (List.length_range n)
  have hTnd : (regenTable g A.k n).Nodup :=
    hTp.nodup_iff.mpr (List.nodup_range n)
  obtain ⟨idx, hidxlt, hidxv⟩ :=
    mem_getD_index (regenTable g A.k n) v0
      (hTp.mem_iff.mpr (List.mem_range.mpr hv0))
  rw [hTlen] at hidxlt
  have hout0 : outAt g n A 0 = (randomNumber g n A).1 := rfl
  have hB : drawIter g n A 1 = (randomNumber g n A).2 := rfl
  by_cases hskip : 1 < n ∧ (regenTable g A.k n).getD 0 0 = A.prev
  · have hd2 : randomNumber g n A =
        ((regenTable g A.k n).getD 1 0,
         { table := regenTable g A.k n, pos := 2,
           prev := (regenTable g A.k n).getD 1 0, k := regenK g A.k n }) := by
      rw [hdraw, if_pos hskip]
    rcases Nat.lt_or_ge idx 1 with hi0 | hi1
    · have hidx0 : idx = 0 := by omega
      subst hidx0
      right
      have hAprev : A.prev = v0 := by rw [← hskip.2, hidxv]
      have hCprev : (drawIter g n A (n - 1)).prev
          = (regenTable g A.k n).getD (n - 1) 0 ∧
          (drawIter g n A (n - 1)).pos = n := by
        rcases Nat.lt_or_ge n 3 with hn2 | hn3
        · have hn2e : n = 2 := by omega
          subst hn2e
          rw [show (2 : Nat) - 1 = 1 from rfl, hB, hd2]
          exact ⟨rfl, rfl⟩
        · have hsplit : n - 1 = 1 + (n - 2) := by omega
          rw [hsplit, drawIter_add, hB, hd2]
          rw [drawIter_window g n hN (n - 2) _ (by omega)
            (by show 2 + (n - 2) ≤ n; omega)]
          constructor
          · show (regenTable g A.k n).getD (2 + (n - 2) - 1) 0 = _
            rw [show 2 + (n - 2) - 1 = 1 + (n - 2) by omega]
          · show 2 + (n - 2) = n
            omega
      refine ⟨hAprev, hCprev.2, ?_⟩
      rw [hCprev.1, ← hidxv]
      exact nodup_getD_ne _ hTnd (n - 1) 0 (by omega) (by omega) (by omega)
    · left
      rcases Nat.lt_or_ge idx 2 with hi2 | hi2
      · have hidx1 : idx = 1 := by omega
        subst hidx1
        exact ⟨0, by omega, by rw [hout0, hd2, hidxv]⟩
      · refine ⟨idx - 1, by omega, ?_⟩
        have hsplit : (1 : Nat) + (idx - 2) = idx - 1 := by omega
        rw [← hsplit, outAt_add, hB, hd2]
        rw [outAt_window g n hN (idx - 2) _
          (by show 2 + (idx - 2) < n; omega)]
        show (regenTable g A.k n).getD (2 + (idx - 2)) 0 = v0
        rw [show 2 + (idx - 2) = idx by omega, hidxv]
  · have hd2 : randomNumber g n A =
        ((regenTable g A.k n).getD 0 0,
         { table := regenTable g A.k n, pos := 1,
           prev := (regenTable g A.k n).getD 0 0, k := regenK g A.k n }) := by
      rw [hdraw, if_neg hskip]
    left
    rcases Nat.lt_or_ge idx 1 with hi0 | hi1
    · have hidx0 : idx = 0 := by omega
      subst hidx0
      exact ⟨0, by omega, by rw [hout0, hd2, hidxv]⟩
    · refine ⟨idx, by omega, ?_⟩
      have hsplit : (1 : Nat) + (idx - 1) = idx := by omega
      rw [← hsplit, outAt_add, hB, hd2]
      rw [outAt_window g n hN (idx - 1) _
        (by show 1 + (idx - 1) < n; omega)]
      show (regenTable g A.k n).getD (1 + (idx - 1)) 0 = v0
      rw [show 1 + (idx - 1) = idx by omega, hidxv]

/-- C8 amended: whenever an admissible file exists — fileStep = 1 with
fileCount ≥ 2, or fileStep = 2 with fileCount ≥ 3 (and fileCount < 128) —
the playRandom retry loop terminates within 2·fileCount + 2 draws, from
every selector state whose cursor is in range; with fileCount = 1 (or
fileStep = 2 and fileCount ≤ 2) and prevFile = 1 it retries forever, as
the counterexample shows. -/
theorem claim_C8_amended (g : Nat → Nat) (fs n pf : Nat) (s : SelSt)
    (hc : (fs = 1 ∧ 2 ≤ n) ∨ (fs = 2 ∧ 3 ≤ n)) (hn : n < 128)
    (hpos : s.pos ≤ n) :
    (playRandomGo g fs n pf (2 * n + 2) s).isSome = true := by
  have hN : n < N := by simpa [N] using hn
  have h2 : 2 ≤ n := by rcases hc with ⟨_, h⟩ | ⟨_, h⟩ <;> omega
  by_contra hnone0
  have hnone : playRandomGo g fs n pf (2 * n + 2) s = none := by
    cases hO : playRandomGo g fs n pf (2 * n + 2) s with
    | none => rfl
    | some v =>
      rw [hO] at hnone0
      simp at hnone0
  have H := playRandomGo_none g fs n pf (2 * n + 2) s hnone
  obtain ⟨v0, hv0lt, hv0acc⟩ : ∃ v0, v0 < n ∧
      acceptFile n pf (bumpFile fs (v0 + 1)) = true := by
    rcases hc with ⟨hfs, hn2⟩ | ⟨hfs, hn3⟩
    · subst hfs
      by_cases hpf : pf = 1
      · subst hpf
        refine ⟨1, by omega, ?_⟩
        simp [acceptFile, bumpFile]
        omega
      · refine ⟨0, by omega, ?_⟩
        simp [acceptFile, bumpFile]
        omega
    · subst hfs
      by_cases hpf : pf = 1
      · subst hpf
        refine ⟨2, by omega, ?_⟩
        simp [acceptFile, bumpFile]
        omega
      · refine ⟨0, by omega, ?_⟩
        simp [acceptFile, bumpFile]
        omega
  rcases Nat.eq_or_lt_of_le hpos with hpeq | hplt
  · rcases regen_phase g n hN h2 s hpeq v0 hv0lt with
      ⟨t, ht, hv⟩ | ⟨_, hCpos, hCprev⟩
    · have hrej := H t (by omega)
      rw [hv] at hrej
      rw [hrej] at hv0acc
      exact Bool.false_ne_true hv0acc
    · rcases regen_phase g n hN h2 (drawIter g n s (n - 1)) hCpos v0 hv0lt
        with ⟨t, ht, hv⟩ | ⟨hprev2, _, _⟩
      · have hsh := outAt_add g n s (n - 1) t
        have hrej := H ((n - 1) + t) (by omega)
        rw [hsh, hv] at hrej
        rw [hrej] at hv0acc
        exact Bool.false_ne_true hv0acc
      · exact hCprev hprev2
  · have hm1 : 1 ≤ n - s.pos := by omega
    have hAeq : drawIter g n s (n - s.pos) =
        { table := s.table, pos := n, prev := s.table.getD (n - 1) 0,
          k := s.k } := by
      rw [drawIter_window g n hN (n - s.pos) s hm1 (by omega)]
      rw [show s.pos + (n - s.pos) = n by omega]
    rcases regen_phase g n hN h2 (drawIter g n s (n - s.pos))
        (by rw [hAeq]) v0 hv0lt with ⟨t, ht, hv⟩ | ⟨hprev, _, _⟩
    · have hsh := outAt_add g n s (n - s.pos) t
      have hrej := H ((n - s.pos) + t) (by omega)
      rw [hsh, hv] at hrej
      rw [hrej] at hv0acc
      exact Bool.false_ne_true hv0acc
    · rw [hAeq] at hprev
      have hlast : outAt g n s ((n - s.pos) - 1)
          = s.table.getD (n - 1) 0 := by
        rw [outAt_window g n hN ((n - s.pos) - 1) s (by omega)]
        rw [show s.pos + ((n - s.pos) - 1) = n - 1 by omega]
      have hrej := H ((n - s.pos) - 1) (by omega)
      rw [hlast] at hrej
      rw [show s.table.getD (n - 1) 0 = v0 from hprev] at hrej
      rw [hrej] at hv0acc
      exact Bool.false_ne_true hv0acc

/-- C8 witness: the amended theorem applied at fileStep = 1,
fileCount = 2, prevFile = 1, from the boot selector state. -/
theorem claim_C8_amended_witness :
    (playRandomGo (fun _ => 0) 1 2 1 (2 * 2 + 2) (selInit 2)).isSome
      = true :=
  claim_C8_amended (fun _ => 0) 1 2 1 (selInit 2)
    (Or.inl ⟨rfl, by decide⟩) (by decide) (by decide)

/-! ## Input command decoder (loop() state machine, C1/C7)

One `dstep` is one poll of the input line: one iteration of loop()
restricted to the input state machine (the periodic section is modelled
separately above, and the DFPlayer actions fired on command completion are
modelled by the emitted command).  Polling costs 1 ms; a debounce wait
costs 20 ms.  State numbers follow the source cases; the inner
do-while of case 99 is flattened into an extra polling state 98 with
timer1 as the quiet deadline, entered after the initial 100 ms delay.
The literals are the source constants: 20 = debounce, 500 = CmdTimeOut,
5000 = sleepTimeOut. -/

inductive Cmd where
  | L1
  | S1
  | L2
  | S2
  | L3
  | S3
  | L4
  | S4
deriving DecidableEq

structure DecSt where
  st : Nat
  timer1 : Nat
  now : Nat
  em : List Cmd
deriving DecidableEq

/-- one poll of the input state machine of loop(), revision 24i. -/
def dstep (btn : Nat → Bool) (s : DecSt) : DecSt :=
  match s.st with
  | 0 =>
    if btn s.now then
      { s with now := s.now + 20, timer1 := s.now + 20 + 500, st := 1 }
    else { s with now := s.now + 1 }
  | 1 =>
    if s.now > s.timer1 then
      { s with em := s.em ++ [Cmd.L1], timer1 := s.now + 5000, st := 10 }
    else if !btn s.now then
      { s with now := s.now + 20, timer1 := s.now + 20 + 500, st := 2 }
    else { s with now := s.now + 1 }
  | 2 =>
    if s.now > s.timer1 then { s with em := s.em ++ [Cmd.S1], st := 99 }
    else if btn s.now then
      { s with now := s.now + 20, timer1 := s.now + 20 + 500, st := 3 }
    else { s with now := s.now + 1 }
  | 3 =>
    if s.now > s.timer1 then { s with em := s.em ++ [Cmd.L2], st := 10 }
    else if !btn s.now then
      { s with now := s.now + 20, timer1 := s.now + 20 + 500, st := 4 }
    else { s with now := s.now + 1 }
  | 4 =>
    if s.now > s.timer1 then { s with em := s.em ++ [Cmd.S2], st := 99 }
    else if btn s.now then
      { s with now := s.now + 20, timer1 := s.now + 20 + 500, st := 5 }
    else { s with now := s.now + 1 }
  | 5 =>
    if s.now > s.timer1 then { s with em := s.em ++ [Cmd.L3], st := 10 }
    else if !btn s.now then
      { s with now := s.now + 20, timer1 := s.now + 20 + 500, st := 6 }
    else { s with now := s.now + 1 }
  | 6 =>
    if s.now > s.timer1 then { s with em := s.em ++ [Cmd.S3], st := 99 }
    else if btn s.now then
      { s with now := s.now + 20, timer1 := s.now + 20 + 500, st := 7 }
    else { s with now := s.now + 1 }
  | 7 =>
    if s.now > s.timer1 then { s with em := s.em ++ [Cmd.L4], st := 10 }
    else if !btn s.now then
      { s with now := s.now + 20, timer1 := s.now + 20 + 500, st := 8 }
    else { s with now := s.now + 1 }
  | 8 =>
    if s.now > s.timer1 then { s with em := s.em ++ [Cmd.S4], st := 99 }
    else if btn s.now then { s with now := s.now + 20, st := 10 }
    else { s with now := s.now + 1 }
  | 10 =>
    if !btn s.now then { s with now := s.now + 20, st := 99 }
    else { s with now := s.now + 1 }
  | 99 => { s with now := s.now + 100, timer1 := s.now + 100 + 500, st := 98 }
  | _ =>
    if s.now ≥ s.timer1 then { s with st := 0 }
    else if btn s.now then
      { s with now := s.now + 20, timer1 := s.now + 20 + 500 }
    else { s with now := s.now + 1 }

/-- run the decoder for a number of polls. -/
def drun (btn : Nat → Bool) : Nat → DecSt → DecSt
  | 0, s => s
  | fuel+1, s => drun btn fuel (dstep btn s)

/-- decoder at idle, time zero, nothing emitted. -/
def decInit : DecSt := ⟨0, 0, 0, []⟩

theorem drun_add (btn : Nat → Bool) (a b : Nat) (s : DecSt) :
    drun btn (a + b) s = drun btn b (drun btn a s) := by
  induction a generalizing s with
  | zero =>
    rw [Nat.zero_add]
    rfl
  | succ a ih =>
    rw [Nat.succ_add]
    show drun btn (a + b) (dstep btn s) = _
    rw [ih (dstep btn s)]
    rfl

/-! Stage lemmas: each describes one waiting phase of the decoder under a
line that is quiet (or held) up to a known edge or timeout. -/

theorem drun_detect0 (btn : Nat → Bool) (T : Nat) :
    ∀ (e t : Nat) (em : List Cmd),
      (∀ u, t ≤ u → u < t + e → btn u = false) → btn (t + e) = true →
      drun btn (e + 1) ⟨0, T, t, em⟩ =
        ⟨1, t + e + 20 + 500, t + e + 20, em⟩ := by
  intro e
  induction e with
  | zero =>
    intro t em _ hp
    rw [Nat.add_zero] at hp ⊢
    show dstep btn ⟨0, T, t, em⟩ = _
    simp only [dstep]
    rw [if_pos hp]
  | succ e ih =>
    intro t em hq hp
    show drun btn (e + 1) (dstep btn ⟨0, T, t, em⟩) = _
    have hstep : dstep btn ⟨0, T, t, em⟩ = ⟨0, T, t + 1, em⟩ := by
      simp only [dstep]
      rw [if_neg (by simp [hq t (by omega) (by omega)])]
    rw [hstep]
    have hrw : t + (e + 1) = (t + 1) + e := by omega
    rw [hrw] at hp ⊢
    exact ih (t + 1) em (fun u h1 h2 => hq u (by omega) (by omega)) hp

theorem drun_release1 (btn : Nat → Bool) (T : Nat) :
    ∀ (e t : Nat) (em : List Cmd), t + e ≤ T →
      (∀ u, t ≤ u → u < t + e → btn u = true) → btn (t + e) = false →
      drun btn (e + 1) ⟨1, T, t, em⟩ =
        ⟨2, t + e + 20 + 500, t + e + 20, em⟩ := by
  intro e
  induction e with
  | zero =>
    intro t em hle _ hp
    rw [Nat.add_zero] at hp hle ⊢
    show dstep btn ⟨1, T, t, em⟩ = _
    simp only [dstep]
    rw [if_neg (show ¬ t > T by omega), if_pos (by simp [hp])]
  | succ e ih =>
    intro t em hle hq hp
    show drun btn (e + 1) (dstep btn ⟨1, T, t, em⟩) = _
    have hstep : dstep btn ⟨1, T, t, em⟩ = ⟨1, T, t + 1, em⟩ := by
      simp only [dstep]
      rw [if_neg (show ¬ t > T by omega),
        if_neg (by simp [hq t (by omega) (by omega)])]
    rw [hstep]
    have hrw : t + (e + 1) = (t + 1) + e := by omega
    rw [hrw] at hp hle ⊢
    exact ih (t + 1) em hle (fun u h1 h2 => hq u (by omega) (by omega)) hp

theorem drun_release3 (btn : Nat → Bool) (T : Nat) :
    ∀ (e t : Nat) (em : List Cmd), t + e ≤ T →
      (∀ u, t ≤ u → u < t + e → btn u = true) → btn (t + e) = false →
      drun btn (e + 1) ⟨3, T, t, em⟩ =
        ⟨4, t + e + 20 + 500, t + e + 20, em⟩ := by
  intro e
  induction e with
  | zero =>
    intro t em hle _ hp
    rw [Nat.add_zero] at hp hle ⊢
    show dstep btn ⟨3, T, t, em⟩ = _
    simp only [dstep]
    rw [if_neg (show ¬ t > T by omega), if_pos (by simp [hp])]
  | succ e ih =>
    intro t em hle hq hp
    show drun btn (e + 1) (dstep btn ⟨3, T, t, em⟩) = _
    have hstep : dstep btn ⟨3, T, t, em⟩ = ⟨3, T, t + 1, em⟩ := by
      simp only [dstep]
      rw [if_neg (show ¬ t > T by omega),
        if_neg (by simp [hq t (by omega) (by omega)])]
    rw [hstep]
    have hrw : t + (e + 1) = (t + 1) + e := by omega
    rw [hrw] at hp hle ⊢
    exact ih (t + 1) em hle (fun u h1 h2 => hq u (by omega) (by omega)) hp

theorem drun_release5 (btn : Nat → Bool) (T : Nat) :
    ∀ (e t : Nat) (em : List Cmd), t + e ≤ T →
      (∀ u, t ≤ u → u < t + e → btn u = true) → btn (t + e) = false →
      drun btn (e + 1) ⟨5, T, t, em⟩ =
        ⟨6, t + e + 20 + 500, t + e + 20, em⟩ := by
  intro e
  induction e with
  | zero =>
    intro t em hle _ hp
    rw [Nat.add_zero] at hp hle ⊢
    show dstep btn ⟨5, T, t, em⟩ = _
    simp only [dstep]
    rw [if_neg (show ¬ t > T by omega), if_pos (by simp [hp])]
  | succ e ih =>
    intro t em hle hq hp
    show drun btn (e + 1) (dstep btn ⟨5, T, t, em⟩) = _
    have hstep : dstep btn ⟨5, T, t, em⟩ = ⟨5, T, t + 1, em⟩ := by
      simp only [dstep]
      rw [if_neg (show ¬ t > T by omega),
        if_neg (by simp [hq t (by omega) (by omega)])]
    rw [hstep]
    have hrw : t + (e + 1) = (t + 1) + e := by omega
    rw [hrw] at hp hle ⊢
    exact ih (t + 1) em hle (fun u h1 h2 => hq u (by omega) (by omega)) hp

theorem drun_release7 (btn : Nat → Bool) (T : Nat) :
    ∀ (e t : Nat) (em : List Cmd), t + e ≤ T →
      (∀ u, t ≤ u → u < t + e → btn u = true) → btn (t + e) = false →
      drun btn (e + 1) ⟨7, T, t, em⟩ =
        ⟨8, t + e + 20 + 500, t + e + 20, em⟩ := by
  intro e
  induction e with
  | zero =>
    intro t em hle _ hp
    rw [Nat.add_zero] at hp hle ⊢
    show dstep btn ⟨7, T, t, em⟩ = _
    simp only [dstep]
    rw [if_neg (show ¬ t > T by omega), if_pos (by simp [hp])]
  | succ e ih =>
    intro t em hle hq hp
    show drun btn (e + 1) (dstep btn ⟨7, T, t, em⟩) = _
    have hstep : dstep btn ⟨7, T, t, em⟩ = ⟨7, T, t + 1, em⟩ := by
      simp only [dstep]
      rw [if_neg (show ¬ t > T by omega),
        if_neg (by simp [hq t (by omega) (by omega)])]
    rw [hstep]
    have hrw : t + (e + 1) = (t + 1) + e := by omega
    rw [hrw] at hp hle ⊢
    exact ih (t + 1) em hle (fun u h1 h2 => hq u (by omega) (by omega)) hp

theorem drun_press2 (btn : Nat → Bool) (T : Nat) :
    ∀ (e t : Nat) (em : List Cmd), t + e ≤ T →
      (∀ u, t ≤ u → u < t + e → btn u = false) → btn (t + e) = true →
      drun btn (e + 1) ⟨2, T, t, em⟩ =
        ⟨3, t + e + 20 + 500, t + e + 20, em⟩ := by
  intro e
  induction e with
  | zero =>
    intro t em hle _ hp
    rw [Nat.add_zero] at hp hle ⊢
    show dstep btn ⟨2, T, t, em⟩ = _
    simp only [dstep]
    rw [if_neg (show ¬ t > T by omega), if_pos hp]
  | succ e ih =>
    intro t em hle hq hp
    show drun btn (e + 1) (dstep btn ⟨2, T, t, em⟩) = _
    have hstep : dstep btn ⟨2, T, t, em⟩ = ⟨2, T, t + 1, em⟩ := by
      simp only [dstep]
      rw [if_neg (show ¬ t > T by omega),
        if_neg (by simp [hq t (by omega) (by omega)])]
    rw [hstep]
    have hrw : t + (e + 1) = (t + 1) + e := by omega
    rw [hrw] at hp hle ⊢
    exact ih (t + 1) em hle (fun u h1 h2 => hq u (by omega) (by omega)) hp

theorem drun_press4 (btn : Nat → Bool) (T : Nat) :
    ∀ (e t : Nat) (em : List Cmd), t + e ≤ T →
      (∀ u, t ≤ u → u < t + e → btn u = false) → btn (t + e) = true →
      drun btn (e + 1) ⟨4, T, t, em⟩ =
        ⟨5, t + e + 20 + 500, t + e + 20, em⟩ := by
  intro e
  induction e with
  | zero =>
    intro t em hle _ hp
    rw [Nat.add_zero] at hp hle ⊢
    show dstep btn ⟨4, T, t, em⟩ = _
    simp only [dstep]
    rw [if_neg (show ¬ t > T by omega), if_pos hp]
  | succ e ih =>
    intro t em hle hq hp
    show drun btn (e + 1) (dstep btn ⟨4, T, t, em⟩) = _
    have hstep : dstep btn ⟨4, T, t, em⟩ = ⟨4, T, t + 1, em⟩ := by
      simp only [dstep]
      rw [if_neg (show ¬ t > T by omega),
        if_neg (by simp [hq t (by omega) (by omega)])]
    rw [hstep]
    have hrw : t + (e + 1) = (t + 1) + e := by omega
    rw [hrw] at hp hle ⊢
    exact ih (t + 1) em hle (fun u h1 h2 => hq u (by omega) (by omega)) hp

theorem drun_press6 (btn : Nat → Bool) (T : Nat) :
    ∀ (e t : Nat) (em : List Cmd), t + e ≤ T →
      (∀ u, t ≤ u → u < t + e → btn u = false) → btn (t + e) = true →
      drun btn (e + 1) ⟨6, T, t, em⟩ =
        ⟨7, t + e + 20 + 500, t + e + 20, em⟩ := by
  intro e
  induction e with
  | zero =>
    intro t em hle _ hp
    rw [Nat.add_zero] at hp hle ⊢
    show dstep btn ⟨6, T, t, em⟩ = _
    simp only [dstep]
    rw [if_neg (show ¬ t > T by omega), if_pos hp]
  | succ e ih =>
    intro t em hle hq hp
    show drun btn (e + 1) (dstep btn ⟨6, T, t, em⟩) = _
    have hstep : dstep btn ⟨6, T, t, em⟩ = ⟨6, T, t + 1, em⟩ := by
      simp only [dstep]
      rw [if_neg (show ¬ t > T by omega),
        if_neg (by simp [hq t (by omega) (by omega)])]
    rw [hstep]
    have hrw : t + (e + 1) = (t + 1) + e := by omega
    rw [hrw] at hp hle ⊢
    exact ih (t + 1) em hle (fun u h1 h2 => hq u (by omega) (by omega)) hp

theorem drun_press8 (btn : Nat → Bool) (T : Nat) :
    ∀ (e t : Nat) (em : List Cmd), t + e ≤ T →
      (∀ u, t ≤ u → u < t + e → btn u = false) → btn (t + e) = true →
      drun btn (e + 1) ⟨8, T, t, em⟩ = ⟨10, T, t + e + 20, em⟩ := by
  intro e
  induction e with
  | zero =>
    intro t em hle _ hp
    rw [Nat.add_zero] at hp hle ⊢
    show dstep btn ⟨8, T, t, em⟩ = _
    simp only [dstep]
    rw [if_neg (show ¬ t > T by omega), if_pos hp]
  | succ e ih =>
    intro t em hle hq hp
    show drun btn (e + 1) (dstep btn ⟨8, T, t, em⟩) = _
    have hstep : dstep btn ⟨8, T, t, em⟩ = ⟨8, T, t + 1, em⟩ := by
      simp only [dstep]
      rw [if_neg (show ¬ t > T by omega),
        if_neg (by simp [hq t (by omega) (by omega)])]
    rw [hstep]
    have hrw : t + (e + 1) = (t + 1) + e := by omega
    rw [hrw] at hp hle ⊢
    exact ih (t + 1) em hle (fun u h1 h2 => hq u (by omega) (by omega)) hp

theorem drun_timeout1 (btn : Nat → Bool) (T : Nat) :
    ∀ (e t : Nat) (em : List Cmd), t + e = T + 1 →
      (∀ u, t ≤ u → u ≤ T → btn u = true) →
      drun btn (e + 1) ⟨1, T, t, em⟩ =
        ⟨10, T + 1 + 5000, T + 1, em ++ [Cmd.L1]⟩ := by
  intro e
  induction e with
  | zero =>
    intro t em he _
    show dstep btn ⟨1, T, t, em⟩ = _
    simp only [dstep]
    rw [if_pos (show t > T by omega)]
    rw [show t = T + 1 by omega]
  | succ e ih =>
    intro t em he hq
    show drun btn (e + 1) (dstep btn ⟨1, T, t, em⟩) = _
    have hstep : dstep btn ⟨1, T, t, em⟩ = ⟨1, T, t + 1, em⟩ := by
      simp only [dstep]
      rw [if_neg (show ¬ t > T by omega),
        if_neg (by simp [hq t (by omega) (by omega)])]
    rw [hstep]
    exact ih (t + 1) em (by omega) (fun u h1 h2 => hq u (by omega) h2)

theorem drun_timeout2 (btn : Nat → Bool) (T : Nat) :
    ∀ (e t : Nat) (em : List Cmd), t + e = T + 1 →
      (∀ u, t ≤ u → u ≤ T → btn u = false) →
      drun btn (e + 1) ⟨2, T, t, em⟩ = ⟨99, T, T + 1, em ++ [Cmd.S1]⟩ := by
  intro e
  induction e with
  | zero =>
    intro t em he _
    show dstep btn ⟨2, T, t, em⟩ = _
    simp only [dstep]
    rw [if_pos (show t > T by omega)]
    rw [show t = T + 1 by omega]
  | succ e ih =>
    intro t em he hq
    show drun btn (e + 1) (dstep btn ⟨2, T, t, em⟩) = _
    have hstep : dstep btn ⟨2, T, t, em⟩ = ⟨2, T, t + 1, em⟩ := by
      simp only [dstep]
      rw [if_neg (show ¬ t > T by omega),
        if_neg (by simp [hq t (by omega) (by omega)])]
    rw [hstep]
    exact ih (t + 1) em (by omega) (fun u h1 h2 => hq u (by omega) h2)

theorem drun_timeout8 (btn : Nat → Bool) (T : Nat) :
    ∀ (e t : Nat) (em : List Cmd), t + e = T + 1 →
      (∀ u, t ≤ u → u ≤ T → btn u = false) →
      drun btn (e + 1) ⟨8, T, t, em⟩ = ⟨99, T, T + 1, em ++ [Cmd.S4]⟩ := by
  intro e
  induction e with
  | zero =>
    intro t em he _
    show dstep btn ⟨8, T, t, em⟩ = _
    simp only [dstep]
    rw [if_pos (show t > T by omega)]
    rw [show t = T + 1 by omega]
  | succ e ih =>
    intro t em he hq
    show drun btn (e + 1) (dstep btn ⟨8, T, t, em⟩) = _
    have hstep : dstep btn ⟨8, T, t, em⟩ = ⟨8, T, t + 1, em⟩ := by
      simp only [dstep]
      rw [if_neg (show ¬ t > T by omega),
        if_neg (by simp [hq t (by omega) (by omega)])]
    rw [hstep]
    exact ih (t + 1) em (by omega) (fun u h1 h2 => hq u (by omega) h2)

theorem drun_release10 (btn : Nat → Bool) (T : Nat) :
    ∀ (e t : Nat) (em : List Cmd),
      (∀ u, t ≤ u → u < t + e → btn u = true) → btn (t + e) = false →
      drun btn (e + 1) ⟨10, T, t, em⟩ = ⟨99, T, t + e + 20, em⟩ := by
  intro e
  induction e with
  | zero =>
    intro t em _ hp
    rw [Nat.add_zero] at hp ⊢
    show dstep btn ⟨10, T, t, em⟩ = _
    simp only [dstep]
    rw [if_pos (by simp [hp])]
  | succ e ih =>
    intro t em hq hp
    show drun btn (e + 1) (dstep btn ⟨10, T, t, em⟩) = _
    have hstep : dstep btn ⟨10, T, t, em⟩ = ⟨10, T, t + 1, em⟩ := by
      simp only [dstep]
      rw [if_neg (by simp [hq t (by omega) (by omega)])]
    rw [hstep]
    have hrw : t + (e + 1) = (t + 1) + e := by omega
    rw [hrw] at hp ⊢
    exact ih (t + 1) em (fun u h1 h2 => hq u (by omega) (by omega)) hp

theorem drun_entry99 (btn : Nat → Bool) (T t : Nat) (em : List Cmd) :
    drun btn 1 ⟨99, T, t, em⟩ = ⟨98, t + 100 + 500, t + 100, em⟩ := rfl

theorem drun_quiet98 (btn : Nat → Bool) :
    ∀ (e t T : Nat) (em : List Cmd), t + e = T →
      (∀ u, t ≤ u → u < T → btn u = false) →
      drun btn (e + 1) ⟨98, T, t, em⟩ = ⟨0, T, T, em⟩ := by
  intro e
  induction e with
  | zero =>
    intro t T em he _
    show dstep btn ⟨98, T, t, em⟩ = _
    simp only [dstep]
    rw [if_pos (show t ≥ T by omega)]
    rw [show t = T by omega]
  | succ e ih =>
    intro t T em he hq
    show drun btn (e + 1) (dstep btn ⟨98, T, t, em⟩) = _
    have hstep : dstep btn ⟨98, T, t, em⟩ = ⟨98, T, t + 1, em⟩ := by
      simp only [dstep]
      rw [if_neg (show ¬ t ≥ T by omega),
        if_neg (by simp [hq t (by omega) (by omega)])]
    rw [hstep]
    exact ih (t + 1) T em (by omega) (fun u h1 h2 => hq u (by omega) h2)

theorem drun_idle0 (btn : Nat → Bool) (T : Nat) :
    ∀ (e t : Nat) (em : List Cmd),
      (∀ u, t ≤ u → u < t + e → btn u = false) →
      drun btn e ⟨0, T, t, em⟩ = ⟨0, T, t + e, em⟩ := by
  intro e
  induction e with
  | zero =>
    intro t em _
    rfl
  | succ e ih =>
    intro t em hq
    show drun btn e (dstep btn ⟨0, T, t, em⟩) = _
    have hstep : dstep btn ⟨0, T, t, em⟩ = ⟨0, T, t + 1, em⟩ := by
      simp only [dstep]
      rw [if_neg (by simp [hq t (by omega) (by omega)])]
    rw [hstep]
    have hrw : t + (e + 1) = (t + 1) + e := by omega
    rw [hrw]
    exact ih (t + 1) em (fun u h1 h2 => hq u (by omega) (by omega))

/-! ## Theorems for C1 (single short press / single long press) -/

/-- input line for a single press: active on [p, p + 20 + d), i.e. the
press survives the 20 ms debounce and then lasts d more milliseconds; the
line is idle forever afterwards. -/
def pressTrace (p d : Nat) : Nat → Bool :=
  fun u => decide (p ≤ u ∧ u < p + 20 + d)

/-- C1: a single press released less than 500 ms after the debounced
detection, followed by quiet, makes the decoder emit S1 exactly once and
return to idle; a press held past the 500 ms timeout emits L1 exactly once
and never S1.  The run is shown for every sufficiently long horizon, so no
further command is ever emitted. -/
theorem claim_C1 :
    (∀ p d k, d < 500 →
      drun (pressTrace p d) (p + d + 1006 + k) decInit =
        ⟨0, p + d + 1141, p + d + 1141 + k, [Cmd.S1]⟩) ∧
    (∀ p e k,
      drun (pressTrace p (501 + e)) (p + e + 1006 + k) decInit =
        ⟨0, p + e + 1141, p + e + 1141 + k, [Cmd.L1]⟩) := by
  constructor
  · intro p d k hd
    have h1 := drun_detect0 (pressTrace p d) 0 p 0 []
      (fun u hu1 hu2 => by
        simp only [pressTrace, decide_eq_false_iff_not]
        omega)
      (by simp only [pressTrace, decide_eq_true_eq]; omega)
    have h2 := drun_release1 (pressTrace p d) (0 + p + 20 + 500) d
      (0 + p + 20) [] (by omega)
      (fun u hu1 hu2 => by
        simp only [pressTrace, decide_eq_true_eq]
        omega)
      (by simp only [pressTrace, decide_eq_false_iff_not]; omega)
    have h3 := drun_timeout2 (pressTrace p d) (0 + p + 20 + d + 20 + 500)
      501 (0 + p + 20 + d + 20) [] (by omega)
      (fun u hu1 hu2 => by
        simp only [pressTrace, decide_eq_false_iff_not]
        omega)
    have h4 := drun_entry99 (pressTrace p d) (0 + p + 20 + d + 20 + 500)
      (0 + p + 20 + d + 20 + 500 + 1) ([] ++ [Cmd.S1])
    have h5 := drun_quiet98 (pressTrace p d) 500
      (0 + p + 20 + d + 20 + 500 + 1 + 100)
      (0 + p + 20 + d + 20 + 500 + 1 + 100 + 500) ([] ++ [Cmd.S1])
      (by omega)
      (fun u hu1 hu2 => by
        simp only [pressTrace, decide_eq_false_iff_not]
        omega)
    have h6 := drun_idle0 (pressTrace p d)
      (0 + p + 20 + d + 20 + 500 + 1 + 100 + 500) k
      (0 + p + 20 + d + 20 + 500 + 1 + 100 + 500) ([] ++ [Cmd.S1])
      (fun u hu1 hu2 => by
        simp only [pressTrace, decide_eq_false_iff_not]
        omega)
    simp only [decInit]
    rw [show p + d + 1006 + k
        = (p + 1) + ((d + 1) + ((501 + 1) + (1 + ((500 + 1) + k))))
      by omega]
    rw [drun_add, h1, drun_add, h2, drun_add, h3, drun_add, h4,
      drun_add, h5, h6]
    rw [show (0 : Nat) + p + 20 + d + 20 + 500 + 1 + 100 + 500
        = p + d + 1141 by omega]
    rw [List.nil_append]
  · intro p e k
    have h1 := drun_detect0 (pressTrace p (501 + e)) 0 p 0 []
      (fun u hu1 hu2 => by
        simp only [pressTrace, decide_eq_false_iff_not]
        omega)
      (by simp only [pressTrace, decide_eq_true_eq]; omega)
    have h2 := drun_timeout1 (pressTrace p (501 + e)) (0 + p + 20 + 500)
      501 (0 + p + 20) [] (by omega)
      (fun u hu1 hu2 => by
        simp only [pressTrace, decide_eq_true_eq]
        omega)
    have h3 := drun_release10 (pressTrace p (501 + e))
      (0 + p + 20 + 500 + 1 + 5000) e (0 + p + 20 + 500 + 1)
      ([] ++ [Cmd.L1])
      (fun u hu1 hu2 => by
        simp only [pressTrace, decide_eq_true_eq]
        omega)
      (by simp only [pressTrace, decide_eq_false_iff_not]; omega)
    have h4 := drun_entry99 (pressTrace p (501 + e))
      (0 + p + 20 + 500 + 1 + 5000) (0 + p + 20 + 500 + 1 + e + 20)
      ([] ++ [Cmd.L1])
    have h5 := drun_quiet98 (pressTrace p (501 + e)) 500
      (0 + p + 20 + 500 + 1 + e + 20 + 100)
      (0 + p + 20 + 500 + 1 + e + 20 + 100 + 500) ([] ++ [Cmd.L1])
      (by omega)
      (fun u hu1 hu2 => by
        simp only [pressTrace, decide_eq_false_iff_not]
        omega)
    have h6 := drun_idle0 (pressTrace p (501 + e))
      (0 + p + 20 + 500 + 1 + e + 20 + 100 + 500) k
      (0 + p + 20 + 500 + 1 + e + 20 + 100 + 500) ([] ++ [Cmd.L1])
      (fun u hu1 hu2 => by
        simp only [pressTrace, decide_eq_false_iff_not]
        omega)
    simp only [decInit]
    rw [show p + e + 1006 + k
        = (p + 1) + ((501 + 1) + ((e + 1) + (1 + ((500 + 1) + k))))
      by omega]
    rw [drun_add, h1, drun_add, h2, drun_add, h3, drun_add, h4,
      drun_add, h5, h6]
    rw [show (0 : Nat) + p + 20 + 500 + 1 + e + 20 + 100 + 500
        = p + e + 1141 by omega]
    rw [List.nil_append]

/-- C1 witness: the theorem applied to a 30 ms short press at time 0 and
to a press held 7 ms past the timeout. -/
theorem claim_C1_witness :
    drun (pressTrace 0 30) (0 + 30 + 1006 + 0) decInit =
      ⟨0, 0 + 30 + 1141, 0 + 30 + 1141 + 0, [Cmd.S1]⟩ ∧
    drun (pressTrace 0 (501 + 7)) (0 + 7 + 1006 + 0) decInit =
      ⟨0, 0 + 7 + 1141, 0 + 7 + 1141 + 0, [Cmd.L1]⟩ :=
  ⟨claim_C1.1 0 30 0 (by decide), claim_C1.2 0 7 0⟩

/-! ## Theorems for C7 (four rapid pairs, S4; extra fifth press) -/

/-- input line for four rapid short press/release pairs: press i is active
for 20 + d_i ms (surviving the debounce), and press i + 1 begins g_i ms
after the debounce that follows release i. -/
def press4Trace (p d1 g1 d2 g2 d3 g3 d4 : Nat) : Nat → Bool :=
  fun u => decide (
    (p ≤ u ∧ u < p + 20 + d1) ∨
    (p + 20 + d1 + 20 + g1 ≤ u ∧
      u < p + 20 + d1 + 20 + g1 + 20 + d2) ∨
    (p + 20 + d1 + 20 + g1 + 20 + d2 + 20 + g2 ≤ u ∧
      u < p + 20 + d1 + 20 + g1 + 20 + d2 + 20 + g2 + 20 + d3) ∨
    (p + 20 + d1 + 20 + g1 + 20 + d2 + 20 + g2 + 20 + d3 + 20 + g3 ≤ u ∧
      u < p + 20 + d1 + 20 + g1 + 20 + d2 + 20 + g2 + 20 + d3 + 20 + g3
        + 20 + d4))

/-- the same four rapid pairs followed by a fifth rapid press, beginning
g4 ms after the debounce of release 4 and lasting 20 + d5 ms. -/
def press5Trace (p d1 g1 d2 g2 d3 g3 d4 g4 d5 : Nat) : Nat → Bool :=
  fun u => decide (
    (p ≤ u ∧ u < p + 20 + d1) ∨
    (p + 20 + d1 + 20 + g1 ≤ u ∧
      u < p + 20 + d1 + 20 + g1 + 20 + d2) ∨
    (p + 20 + d1 + 20 + g1 + 20 + d2 + 20 + g2 ≤ u ∧
      u < p + 20 + d1 + 20 + g1 + 20 + d2 + 20 + g2 + 20 + d3) ∨
    (p + 20 + d1 + 20 + g1 + 20 + d2 + 20 + g2 + 20 + d3 + 20 + g3 ≤ u ∧
      u < p + 20 + d1 + 20 + g1 + 20 + d2 + 20 + g2 + 20 + d3 + 20 + g3
        + 20 + d4) ∨
    (p + 20 + d1 + 20 + g1 + 20 + d2 + 20 + g2 + 20 + d3 + 20 + g3
        + 20 + d4 + 20 + g4 ≤ u ∧
      u < p + 20 + d1 + 20 + g1 + 20 + d2 + 20 + g2 + 20 + d3 + 20 + g3
        + 20 + d4 + 20 + g4 + 20 + d5))

/-- C7 amended: four rapid short press/release pairs followed by the
quiet period make the decoder emit S4 exactly once and return to idle;
but a fifth rapid press arriving before the quiet period elapses cancels
the command entirely: the decoder discards it (case 8 jumps to the
wait-for-release state without reading a ninth state), waits for the
release and returns to idle having emitted nothing — no S4 fires. -/
theorem claim_C7_amended :
    (∀ p d1 g1 d2 g2 d3 g3 d4 k,
      d1 < 500 → d2 < 500 → d3 < 500 → d4 < 500 →
      g1 < 500 → g2 < 500 → g3 < 500 →
      drun (press4Trace p d1 g1 d2 g2 d3 g3 d4)
          (p + d1 + g1 + d2 + g2 + d3 + g3 + d4 + 1012 + k) decInit =
        ⟨0, p + d1 + g1 + d2 + g2 + d3 + g3 + d4 + 1261,
         p + d1 + g1 + d2 + g2 + d3 + g3 + d4 + 1261 + k, [Cmd.S4]⟩) ∧
    (∀ p d1 g1 d2 g2 d3 g3 d4 g4 d5 k,
      d1 < 500 → d2 < 500 → d3 < 500 → d4 < 500 →
      g1 < 500 → g2 < 500 → g3 < 500 → g4 < 500 →
      drun (press5Trace p d1 g1 d2 g2 d3 g3 d4 g4 d5)
          (p + d1 + g1 + d2 + g2 + d3 + g3 + d4 + g4 + d5 + 512 + k)
          decInit =
        ⟨0, p + d1 + g1 + d2 + g2 + d3 + g3 + d4 + g4 + d5 + 800,
         p + d1 + g1 + d2 + g2 + d3 + g3 + d4 + g4 + d5 + 800 + k,
         []⟩) := by
  constructor
  · intro p d1 g1 d2 g2 d3 g3 d4 k hd1 hd2 hd3 hd4 hg1 hg2 hg3
    have h1 := drun_detect0 (press4Trace p d1 g1 d2 g2 d3 g3 d4) 0 p 0 []
      (fun u hu1 hu2 => by
        simp only [press4Trace, decide_eq_false_iff_not]
        omega)
      (by simp only [press4Trace, decide_eq_true_eq]; omega)
    have h2 := drun_release1 (press4Trace p d1 g1 d2 g2 d3 g3 d4) (0 + p + 20 + 500) d1
      (0 + p + 20) [] (by omega)
      (fun u hu1 hu2 => by
        simp only [press4Trace, decide_eq_true_eq]
        omega)
      (by simp only [press4Trace, decide_eq_false_iff_not]; omega)
    have h3 := drun_press2 (press4Trace p d1 g1 d2 g2 d3 g3 d4) (0 + p + 20 + d1 + 20 + 500) g1
      (0 + p + 20 + d1 + 20) [] (by omega)
      (fun u hu1 hu2 => by
        simp only [press4Trace, decide_eq_false_iff_not]
        omega)
      (by simp only [press4Trace, decide_eq_true_eq]; omega)
    have h4 := drun_release3 (press4Trace p d1 g1 d2 g2 d3 g3 d4) (0 + p + 20 + d1 + 20 + g1 + 20 + 500) d2
      (0 + p + 20 + d1 + 20 + g1 + 20) [] (by omega)
      (fun u hu1 hu2 => by
        simp only [press4Trace, decide_eq_true_eq]
        omega)
      (by simp only [press4Trace, decide_eq_false_iff_not]; omega)
    have h5 := drun_press4 (press4Trace p d1 g1 d2 g2 d3 g3 d4) (0 + p + 20 + d1 + 20 + g1 + 20 + d2 + 20 + 500) g2
      (0 + p + 20 + d1 + 20 + g1 + 20 + d2 + 20) [] (by omega)
      (fun u hu1 hu2 => by
        simp only [press4Trace, decide_eq_false_iff_not]
        omega)
      (by simp only [press4Trace, decide_eq_true_eq]; omega)
    have h6 := drun_release5 (press4Trace p d1 g1 d2 g2 d3 g3 d4) (0 + p + 20 + d1 + 20 + g1 + 20 + d2 + 20 + g2 + 20 + 500) d3
      (0 + p + 20 + d1 + 20 + g1 + 20 + d2 + 20 + g2 + 20) [] (by omega)
      (fun u hu1 hu2 => by
        simp only [press4Trace, decide_eq_true_eq]
        omega)
      (by simp only [press4Trace, decide_eq_false_iff_not]; omega)
    have h7 := drun_press6 (press4Trace p d1 g1 d2 g2 d3 g3 d4) (0 + p + 20 + d1 + 20 + g1 + 20 + d2 + 20 + g2 + 20 + d3 + 20 + 500) g3
      (0 + p + 20 + d1 + 20 + g1 + 20 + d2 + 20 + g2 + 20 + d3 + 20) [] (by omega)
      (fun u hu1 hu2 => by
        simp only [press4Trace, decide_eq_false_iff_not]
        omega)
      (by simp only [press4Trace, decide_eq_true_eq]; omega)
    have h8 := drun_release7 (press4Trace p d1 g1 d2 g2 d3 g3 d4) (0 + p + 20 + d1 + 20 + g1 + 20 + d2 + 20 + g2 + 20 + d3 + 20 + g3 + 20 + 500) d4
      (0 + p + 20 + d1 + 20 + g1 + 20 + d2 + 20 + g2 + 20 + d3 + 20 + g3 + 20) [] (by omega)
      (fun u hu1 hu2 => by
        simp only [press4Trace, decide_eq_true_eq]
        omega)
      (by simp only [press4Trace, decide_eq_false_iff_not]; omega)
    have h9 := drun_timeout8 (press4Trace p d1 g1 d2 g2 d3 g3 d4) (0 + p + 20 + d1 + 20 + g1 + 20 + d2 + 20 + g2 + 20 + d3 + 20 + g3 + 20 + d4 + 20 + 500)
      501 (0 + p + 20 + d1 + 20 + g1 + 20 + d2 + 20 + g2 + 20 + d3 + 20 + g3 + 20 + d4 + 20) [] (by omega)
      (fun u hu1 hu2 => by
        simp only [press4Trace, decide_eq_false_iff_not]
        omega)
    have h10 := drun_entry99 (press4Trace p d1 g1 d2 g2 d3 g3 d4) (0 + p + 20 + d1 + 20 + g1 + 20 + d2 + 20 + g2 + 20 + d3 + 20 + g3 + 20 + d4 + 20 + 500)
      (0 + p + 20 + d1 + 20 + g1 + 20 + d2 + 20 + g2 + 20 + d3 + 20 + g3 + 20 + d4 + 20 + 500 + 1) ([] ++ [Cmd.S4])
    have h11 := drun_quiet98 (press4Trace p d1 g1 d2 g2 d3 g3 d4) 500
      (0 + p + 20 + d1 + 20 + g1 + 20 + d2 + 20 + g2 + 20 + d3 + 20 + g3 + 20 + d4 + 20 + 500 + 1 + 100)
      (0 + p + 20 + d1 + 20 + g1 + 20 + d2 + 20 + g2 + 20 + d3 + 20 + g3 + 20 + d4 + 20 + 500 + 1 + 100 + 500) ([] ++ [Cmd.S4])
      (by omega)
      (fun u hu1 hu2 => by
        simp only [press4Trace, decide_eq_false_iff_not]
        omega)
    have h12 := drun_idle0 (press4Trace p d1 g1 d2 g2 d3 g3 d4)
      (0 + p + 20 + d1 + 20 + g1 + 20 + d2 + 20 + g2 + 20 + d3 + 20 + g3 + 20 + d4 + 20 + 500 + 1 + 100 + 500) k
      (0 + p + 20 + d1 + 20 + g1 + 20 + d2 + 20 + g2 + 20 + d3 + 20 + g3 + 20 + d4 + 20 + 500 + 1 + 100 + 500) ([] ++ [Cmd.S4])
      (fun u hu1 hu2 => by
        simp only [press4Trace, decide_eq_false_iff_not]
        omega)
    simp only [decInit]
    rw [show p + d1 + g1 + d2 + g2 + d3 + g3 + d4 + 1012 + k
        = (p + 1) + ((d1 + 1) + ((g1 + 1) + ((d2 + 1) + ((g2 + 1) + ((d3 + 1) + ((g3 + 1) + ((d4 + 1) + ((501 + 1) + (1 + ((500 + 1) + k)))))))))) by omega]
    rw [drun_add,
      h1,
      drun_add,
      h2,
      drun_add,
      h3,
      drun_add,
      h4,
      drun_add,
      h5,
      drun_add,
      h6,
      drun_add,
      h7,
      drun_add,
      h8,
      drun_add,
      h9,
      drun_add,
      h10,
      drun_add,
      h11,
      h12]
    rw [show (0 + p + 20 + d1 + 20 + g1 + 20 + d2 + 20 + g2 + 20 + d3 + 20 + g3 + 20 + d4 + 20 + 500 + 1 + 100 + 500 : Nat)
        = p + d1 + g1 + d2 + g2 + d3 + g3 + d4 + 1261 by omega]
    rw [List.nil_append]
  · intro p d1 g1 d2 g2 d3 g3 d4 g4 d5 k hd1 hd2 hd3 hd4 hg1 hg2 hg3 hg4
    have h1 := drun_detect0 (press5Trace p d1 g1 d2 g2 d3 g3 d4 g4 d5) 0 p 0 []
      (fun u hu1 hu2 => by
        simp only [press5Trace, decide_eq_false_iff_not]
        omega)
      (by simp only [press5Trace, decide_eq_true_eq]; omega)
    have h2 := drun_release1 (press5Trace p d1 g1 d2 g2 d3 g3 d4 g4 d5) (0 + p + 20 + 500) d1
      (0 + p + 20) [] (by omega)
      (fun u hu1 hu2 => by
        simp only [press5Trace, decide_eq_true_eq]
        omega)
      (by simp only [press5Trace, decide_eq_false_iff_not]; omega)
    have h3 := drun_press2 (press5Trace p d1 g1 d2 g2 d3 g3 d4 g4 d5) (0 + p + 20 + d1 + 20 + 500) g1
      (0 + p + 20 + d1 + 20) [] (by omega)
      (fun u hu1 hu2 => by
        simp only [press5Trace, decide_eq_false_iff_not]
        omega)
      (by simp only [press5Trace, decide_eq_true_eq]; omega)
    have h4 := drun_release3 (press5Trace p d1 g1 d2 g2 d3 g3 d4 g4 d5) (0 + p + 20 + d1 + 20 + g1 + 20 + 500) d2
      (0 + p + 20 + d1 + 20 + g1 + 20) [] (by omega)
      (fun u hu1 hu2 => by
        simp only [press5Trace, decide_eq_true_eq]
        omega)
      (by simp only [press5Trace, decide_eq_false_iff_not]; omega)
    have h5 := drun_press4 (press5Trace p d1 g1 d2 g2 d3 g3 d4 g4 d5) (0 + p + 20 + d1 + 20 + g1 + 20 + d2 + 20 + 500) g2
      (0 + p + 20 + d1 + 20 + g1 + 20 + d2 + 20) [] (by omega)
      (fun u hu1 hu2 => by
        simp only [press5Trace, decide_eq_false_iff_not]
        omega)
      (by simp only [press5Trace, decide_eq_true_eq]; omega)
    have h6 := drun_release5 (press5Trace p d1 g1 d2 g2 d3 g3 d4 g4 d5) (0 + p + 20 + d1 + 20 + g1 + 20 + d2 + 20 + g2 + 20 + 500) d3
      (0 + p + 20 + d1 + 20 + g1 + 20 + d2 + 20 + g2 + 20) [] (by omega)
      (fun u hu1 hu2 => by
        simp only [press5Trace, decide_eq_true_eq]
        omega)
      (by simp only [press5Trace, decide_eq_false_iff_not]; omega)
    have h7 := drun_press6 (press5Trace p d1 g1 d2 g2 d3 g3 d4 g4 d5) (0 + p + 20 + d1 + 20 + g1 + 20 + d2 + 20 + g2 + 20 + d3 + 20 + 500) g3
      (0 + p + 20 + d1 + 20 + g1 + 20 + d2 + 20 + g2 + 20 + d3 + 20) [] (by omega)
      (fun u hu1 hu2 => by
        simp only [press5Trace, decide_eq_false_iff_not]
        omega)
      (by simp only [press5Trace, decide_eq_true_eq]; omega)
    have h8 := drun_release7 (press5Trace p d1 g1 d2 g2 d3 g3 d4 g4 d5) (0 + p + 20 + d1 + 20 + g1 + 20 + d2 + 20 + g2 + 20 + d3 + 20 + g3 + 20 + 500) d4
      (0 + p + 20 + d1 + 20 + g1 + 20 + d2 + 20 + g2 + 20 + d3 + 20 + g3 + 20) [] (by omega)
      (fun u hu1 hu2 => by
        simp only [press5Trace, decide_eq_true_eq]
        omega)
      (by simp only [press5Trace, decide_eq_false_iff_not]; omega)
    have h9 := drun_press8 (press5Trace p d1 g1 d2 g2 d3 g3 d4 g4 d5) (0 + p + 20 + d1 + 20 + g1 + 20 + d2 + 20 + g2 + 20 + d3 + 20 + g3 + 20 + d4 + 20 + 500) g4
      (0 + p + 20 + d1 + 20 + g1 + 20 + d2 + 20 + g2 + 20 + d3 + 20 + g3 + 20 + d4 + 20) [] (by omega)
      (fun u hu1 hu2 => by
        simp only [press5Trace, decide_eq_false_iff_not]
        omega)
      (by simp only [press5Trace, decide_eq_true_eq]; omega)
    have h10 := drun_release10 (press5Trace p d1 g1 d2 g2 d3 g3 d4 g4 d5) (0 + p + 20 + d1 + 20 + g1 + 20 + d2 + 20 + g2 + 20 + d3 + 20 + g3 + 20 + d4 + 20 + 500) d5
      (0 + p + 20 + d1 + 20 + g1 + 20 + d2 + 20 + g2 + 20 + d3 + 20 + g3 + 20 + d4 + 20 + g4 + 20) []
      (fun u hu1 hu2 => by
        simp only [press5Trace, decide_eq_true_eq]
        omega)
      (by simp only [press5Trace, decide_eq_false_iff_not]; omega)
    have h11 := drun_entry99 (press5Trace p d1 g1 d2 g2 d3 g3 d4 g4 d5) (0 + p + 20 + d1 + 20 + g1 + 20 + d2 + 20 + g2 + 20 + d3 + 20 + g3 + 20 + d4 + 20 + 500)
      (0 + p + 20 + d1 + 20 + g1 + 20 + d2 + 20 + g2 + 20 + d3 + 20 + g3 + 20 + d4 + 20 + g4 + 20 + d5 + 20) []
    have h12 := drun_quiet98 (press5Trace p d1 g1 d2 g2 d3 g3 d4 g4 d5) 500
      (0 + p + 20 + d1 + 20 + g1 + 20 + d2 + 20 + g2 + 20 + d3 + 20 + g3 + 20 + d4 + 20 + g4 + 20 + d5 + 20 + 100)
      (0 + p + 20 + d1 + 20 + g1 + 20 + d2 + 20 + g2 + 20 + d3 + 20 + g3 + 20 + d4 + 20 + g4 + 20 + d5 + 20 + 100 + 500) []
      (by omega)
      (fun u hu1 hu2 => by
        simp only [press5Trace, decide_eq_false_iff_not]
        omega)
    have h13 := drun_idle0 (press5Trace p d1 g1 d2 g2 d3 g3 d4 g4 d5)
      (0 + p + 20 + d1 + 20 + g1 + 20 + d2 + 20 + g2 + 20 + d3 + 20 + g3 + 20 + d4 + 20 + g4 + 20 + d5 + 20 + 100 + 500) k
      (0 + p + 20 + d1 + 20 + g1 + 20 + d2 + 20 + g2 + 20 + d3 + 20 + g3 + 20 + d4 + 20 + g4 + 20 + d5 + 20 + 100 + 500) []
      (fun u hu1 hu2 => by
        simp only [press5Trace, decide_eq_false_iff_not]
        omega)
    simp only [decInit]
    rw [show p + d1 + g1 + d2 + g2 + d3 + g3 + d4 + g4 + d5 + 512 + k
        = (p + 1) + ((d1 + 1) + ((g1 + 1) + ((d2 + 1) + ((g2 + 1) + ((d3 + 1) + ((g3 + 1) + ((d4 + 1) + ((g4 + 1) + ((d5 + 1) + (1 + ((500 + 1) + k))))))))))) by omega]
    rw [drun_add,
      h1,
      drun_add,
      h2,
      drun_add,
      h3,
      drun_add,
      h4,
      drun_add,
      h5,
      drun_add,
      h6,
      drun_add,
      h7,
      drun_add,
      h8,
      drun_add,
      h9,
      drun_add,
      h10,
      drun_add,
      h11,
      drun_add,
      h12,
      h13]
    rw [show (0 + p + 20 + d1 + 20 + g1 + 20 + d2 + 20 + g2 + 20 + d3 + 20 + g3 + 20 + d4 + 20 + g4 + 20 + d5 + 20 + 100 + 500 : Nat)
        = p + d1 + g1 + d2 + g2 + d3 + g3 + d4 + g4 + d5 + 800 by omega]

/-- C7 witness: the amended theorem applied at concrete press and gap
lengths. -/
theorem claim_C7_amended_witness :
    drun (press4Trace 2 10 50 20 60 30 70 40)
        (2 + 10 + 50 + 20 + 60 + 30 + 70 + 40 + 1012 + 3) decInit =
      ⟨0, 2 + 10 + 50 + 20 + 60 + 30 + 70 + 40 + 1261,
       2 + 10 + 50 + 20 + 60 + 30 + 70 + 40 + 1261 + 3, [Cmd.S4]⟩ ∧
    drun (press5Trace 2 10 50 20 60 30 70 40 80 90)
        (2 + 10 + 50 + 20 + 60 + 30 + 70 + 40 + 80 + 90 + 512 + 4)
        decInit =
      ⟨0, 2 + 10 + 50 + 20 + 60 + 30 + 70 + 40 + 80 + 90 + 800,
       2 + 10 + 50 + 20 + 60 + 30 + 70 + 40 + 80 + 90 + 800 + 4, []⟩ :=
  ⟨claim_C7_amended.1 2 10 50 20 60 30 70 40 3 (by decide) (by decide)
      (by decide) (by decide) (by decide) (by decide) (by decide),
   claim_C7_amended.2 2 10 50 20 60 30 70 40 80 90 4 (by decide)
      (by decide) (by decide) (by decide) (by decide) (by decide)
      (by decide) (by decide)⟩

set_option maxRecDepth 2000 in
/-- C7 counterexample: with four rapid short pairs and a fifth rapid
press before the quiet period elapses, the decoder emits nothing at all —
not S4 — and returns to idle, refuting the claim that the trace still
yields S4.  The 512-poll run is evaluated in four chunks of 128 polls. -/
theorem claim_C7_counterexample :
    drun (press5Trace 0 0 0 0 0 0 0 0 0 0) 512 decInit
      = ⟨0, 800, 800, []⟩ ∧ ([] : List Cmd) ≠ [Cmd.S4] := by
  refine ⟨?_, by decide⟩
  have s1 : drun (press5Trace 0 0 0 0 0 0 0 0 0 0) 128 decInit
      = ⟨98, 800, 417, []⟩ := by decide
  have s2 : drun (press5Trace 0 0 0 0 0 0 0 0 0 0) 128 ⟨98, 800, 417, []⟩
      = ⟨98, 800, 545, []⟩ := by decide
  have s3 : drun (press5Trace 0 0 0 0 0 0 0 0 0 0) 128 ⟨98, 800, 545, []⟩
      = ⟨98, 800, 673, []⟩ := by decide
  have s4 : drun (press5Trace 0 0 0 0 0 0 0 0 0 0) 128 ⟨98, 800, 673, []⟩
      = ⟨0, 800, 800, []⟩ := by decide
  rw [show (512 : Nat) = 128 + (128 + (128 + 128)) from rfl]
  rw [drun_add, s1, drun_add, s2, drun_add, s3, s4]

end USB
